import Mathlib

/-
Verification development for the GraphReseauScientifique repository.

The repository crawls an encyclopedia to build a directed influence graph
between scientists.  We give a shallow embedding of its core components:

  * `cache_manager.py`  — `CacheManager` (`get` / `set` / `invalidate_version`)
  * `llm_extractor.py`  — `LLMExtractor.extract_relations`, the responder
    fallback chain and the JSON response parsing
  * `graph_builder.py`  — the BFS crawl loop (`build_influence_graph`), the
    chronology filter, the resume-queue reconstruction and checkpointing
  * `scripts/advanced_validator.py` — the offline confidence scorer

External collaborators (the Wikipedia client, the network responders, the
Wikidata service, the JSON decoder `json.loads`, the filesystem clock) are
modelled as explicit oracle parameters, exactly at the interface boundary
the spec draws for them.  md5 keys are modelled by their (collision-free)
preimage content.  Python integers are `Int`/`Nat`; Python `None`-able
values are `Option`; Python float arithmetic in the scorer is modelled
over `Rat` (exact decimal arithmetic).
-/

namespace GRS

/-- Open-brace character, written by code point to keep string literals plain. -/
def braceOpen : Char := Char.ofNat 123

/-- Close-brace character. -/
def braceClose : Char := Char.ofNat 125

/-- Python truthiness of an optional integer: `None` and `0` are falsy.
This models `if not x:` on a value that is either absent or an int. -/
def pyKnown (x : Option Int) : Bool :=
  match x with
  | none => false
  | some n => n != 0

/-! ## JSON values

Model of the Python dict/list/scalar universe that flows between
`json.loads`, the cache payloads, and `extract_relations`. -/

inductive Json where
  | null
  | bool (b : Bool)
  | num (q : Rat)
  | str (s : String)
  | arr (elems : List Json)
  | obj (fields : List (String × Json))

/-- Python truthiness of a JSON value (`result if result else default`). -/
def Json.truthy : Json → Bool
  | .null => false
  | .bool b => b
  | .num q => q != 0
  | .str s => s != ""
  | .arr l => !l.isEmpty
  | .obj l => !l.isEmpty

/-- Does a JSON object carry a top-level key?  (Non-objects carry none.) -/
def Json.hasKey (j : Json) (k : String) : Bool :=
  match j with
  | .obj fields => fields.any fun p => p.1 == k
  | _ => false

/-- `d.get(k, default)` on a JSON object. -/
def Json.getD (j : Json) (k : String) (dflt : Json) : Json :=
  match j with
  | .obj fields =>
    match fields.find? (fun p => p.1 == k) with
    | some p => p.2
    | none => dflt
  | _ => dflt

/-! ## String helpers mirroring Python `str` operations -/

/-- Python `s.find(ch)`: index of first occurrence, `-1` if absent. -/
def pyFind (s : String) (ch : Char) : Int :=
  match s.data.findIdx? (· == ch) with
  | some i => (i : Int)
  | none => -1

/-- Python `s.rfind(ch)`: index of last occurrence, `-1` if absent. -/
def pyRfind (s : String) (ch : Char) : Int :=
  match s.data.reverse.findIdx? (· == ch) with
  | some i => (s.data.length - 1 - i : Int)
  | none => -1

/-- Python `s[a:b]` for `0 ≤ a ≤ b` (the only use sites in the source). -/
def pySlice (s : String) (a b : Nat) : String :=
  ⟨(s.data.drop a).take (b - a)⟩

/-- Boolean substring test: does `needle` occur inside `hay`? -/
def strContains (needle hay : String) : Bool :=
  hay.data.tails.any fun t => needle.data.isPrefixOf t

/-! ## `llm_extractor.py` — `LLMExtractor._parse_json_response`

```
try:
    start = response.find(LBRACE)
    end = response.rfind(RBRACE) + 1
    if start != -1 and end > start:
        return json.loads(response[start:end])
except json.JSONDecodeError:
    pass
return EMPTY_RELATIONS
```
`json.loads` is the Python standard JSON decoder, an external boundary:
it is passed in as an oracle `loads : String → Option Json` (`none` models
a raised `JSONDecodeError`). -/

/-- The fallback value of `_parse_json_response` and `extract_relations`:
the dict literal with keys "inspirations" and "inspired" (these are the
key names the source uses). -/
def emptyRelations : Json :=
  Json.obj [("inspirations", Json.arr []), ("inspired", Json.arr [])]

/-- The first-open-brace .. last-close-brace slice of the response, when the
source's guard `start != -1 and end > start` holds. -/
def sliceCandidate (response : String) : Option String :=
  let start := pyFind response braceOpen
  let stop := pyRfind response braceClose + 1
  if start != -1 && stop > start then
    some (pySlice response start.toNat stop.toNat)
  else
    none

/-- The JSON object parsed out of the responder output, if any:
slice extraction followed by `json.loads`. -/
def sliceParse (loads : String → Option Json) (response : String) : Option Json :=
  (sliceCandidate response).bind loads

/-- `LLMExtractor._parse_json_response`. -/
def parse_json_response (loads : String → Option Json) (response : String) : Json :=
  (sliceParse loads response).getD emptyRelations

/-! ## `cache_manager.py` — `CacheManager`

One file per entry under the cache directory, named by
`md5(f"SCIENTIST|VERSION|TEXT_PREFIX")`.  The md5 key is modelled by its
preimage content, the structured triple `(scientist_name, prompt_version,
text[:5000])` (md5 collisions are assumed away, as the source does).
The on-disk directory is a pure association list `CacheStore`; a write
overwrites the file of the same name.  Unreadable/corrupt files and
`IOError`s are external faults outside this pure filesystem model. -/

def PROMPT_VERSION : String := "v2.0-fewshot-cot"

/-- The content of one cache file (`cache_entry` in `CacheManager.set`).
`text_hash` is `md5(text)`, modelled by the full text; `timestamp` is the
wall clock at write time, supplied by the caller as an oracle value. -/
structure CacheEntry where
  scientist_name : String
  prompt_version : String
  text_hash : String
  text_length : Nat
  result : Json
  timestamp : Nat

/-- The preimage of `CacheManager._generate_key`'s md5. -/
abbrev CacheKey := String × String × String

/-- The cache directory: file name (key) to file content. -/
structure CacheStore where
  entries : List (CacheKey × CacheEntry)

/-- The empty cache directory. -/
def CacheStore.empty : CacheStore := ⟨[]⟩

/-- Read the file for a key, if present. -/
def CacheStore.read (store : CacheStore) (k : CacheKey) : Option CacheEntry :=
  match store.entries.find? (fun p => p.1 == k) with
  | some p => some p.2
  | none => none

/-- Write (create or overwrite) the file for a key. -/
def CacheStore.write (store : CacheStore) (k : CacheKey) (e : CacheEntry) : CacheStore :=
  ⟨(k, e) :: store.entries.filter (fun p => !(p.1 == k))⟩

/-- In-process state of a `CacheManager`: current policy version plus the
hit/miss statistics counters. -/
structure CacheManager where
  prompt_version : String
  hits : Nat
  misses : Nat

/-- A fresh `CacheManager()` on the default version. -/
def CacheManager.init : CacheManager :=
  { prompt_version := PROMPT_VERSION, hits := 0, misses := 0 }

/-- `CacheManager._generate_key`:
`md5(f"SCIENTIST|VERSION|TEXT[:5000]")`, as its preimage triple. -/
def CacheManager.generate_key (mgr : CacheManager) (text scientist_name : String) :
    CacheKey :=
  (scientist_name, mgr.prompt_version, text.take 5000)

/-- `CacheManager.get`: miss if the file is absent, or its stored
`prompt_version` differs from the current one; hit otherwise.  Returns the
cached result together with the manager with updated statistics. -/
def CacheManager.get (mgr : CacheManager) (store : CacheStore)
    (text scientist_name : String) : Option Json × CacheManager :=
  let k := mgr.generate_key text scientist_name
  match store.read k with
  | none => (none, { mgr with misses := mgr.misses + 1 })
  | some cached =>
    if cached.prompt_version != mgr.prompt_version then
      (none, { mgr with misses := mgr.misses + 1 })
    else
      (some cached.result, { mgr with hits := mgr.hits + 1 })

/-- `CacheManager.set`: unconditionally writes the entry file. -/
def CacheManager.set (mgr : CacheManager) (store : CacheStore)
    (text scientist_name : String) (result : Json) (now : Nat) : CacheStore :=
  let k := mgr.generate_key text scientist_name
  store.write k
    { scientist_name := scientist_name
      prompt_version := mgr.prompt_version
      text_hash := text
      text_length := text.length
      result := result
      timestamp := now }

/-- `CacheManager.invalidate_version`: scans every entry file, deletes the
ones whose stored `prompt_version` equals `old_version`, and returns the
surviving store together with the number of deleted files. -/
def CacheManager.invalidate_version (store : CacheStore) (old_version : String) :
    CacheStore × Nat :=
  (⟨store.entries.filter (fun p => !(p.2.prompt_version == old_version))⟩,
   (store.entries.filter (fun p => p.2.prompt_version == old_version)).length)

/-! ## `llm_extractor.py` — `LLMExtractor.extract_relations`

The five backend responders (Cerebras, Groq, Mistral, OpenAI, Ollama) are
external network services.  One call to `extract_relations` issues at most
one request to each, all with the same prompt, so a run is described by one
`ResponderOutcome` per responder: `fail` models a raised exception, a
non-200 status or a missing API key (every path on which the `_call_*`
helper returns `None`); `ok content` models a successful response whose
message content is `content`, which the helper then feeds to
`_parse_json_response`. -/

inductive ResponderOutcome where
  | fail
  | ok (content : String)

/-- Shared shape of `_call_cerebras` / `_call_groq` / `_call_mistral` /
`_call_openai` / `_call_ollama`: `None` on failure, otherwise the parsed
response (note `_parse_json_response` itself never fails). -/
def callResponder (loads : String → Option Json) (o : ResponderOutcome) : Option Json :=
  match o with
  | .fail => none
  | .ok content => some (parse_json_response loads content)

/-- The outcomes of the five responders for one prompt. -/
structure Responders where
  cerebras : ResponderOutcome
  groq : ResponderOutcome
  mistral : ResponderOutcome
  openai : ResponderOutcome
  ollama : ResponderOutcome

/-- The configuration flags from `config.py` consulted by the fallback
chain (`USE_CEREBRAS`, `USE_GROQ`, `USE_MISTRAL`, and truthiness of
`OPENAI_API_KEY`; Ollama is attempted unconditionally when every earlier
attempt returned `None`). -/
structure LLMConfig where
  use_cerebras : Bool
  use_groq : Bool
  use_mistral : Bool
  openai_key : Bool

/-- The responder fallback chain of `extract_relations` (steps 1–5 of the
source), producing the `result` local variable. -/
def responderChain (loads : String → Option Json) (cfg : LLMConfig)
    (rs : Responders) : Option Json :=
  let result : Option Json := none
  let result := if cfg.use_cerebras then callResponder loads rs.cerebras else result
  let result := if result.isNone && cfg.use_groq then callResponder loads rs.groq else result
  let result := if result.isNone && cfg.use_mistral then callResponder loads rs.mistral else result
  let result := if result.isNone && cfg.openai_key then callResponder loads rs.openai else result
  let result := if result.isNone then callResponder loads rs.ollama else result
  result

/-- `LLMExtractor.extract_relations`: cache lookup, responder fallback
chain, normalisation of a falsy result to the empty relation set, cache
write-back.  Returns the result together with the updated cache manager
statistics and cache directory. -/
def extract_relations (loads : String → Option Json) (cfg : LLMConfig)
    (rs : Responders) (mgr : CacheManager) (store : CacheStore)
    (text scientist_name : String) (now : Nat) :
    Json × CacheManager × CacheStore :=
  match mgr.get store text scientist_name with
  | (some cached, mgr') => (cached, mgr', store)
  | (none, mgr') =>
    let result := responderChain loads cfg rs
    let final_result :=
      match result with
      | some j => if j.truthy then j else emptyRelations
      | none => emptyRelations
    (final_result, mgr', mgr'.set store text scientist_name final_result now)

/-! ## `graph_builder.py` — data model

A NetworkX `DiGraph` whose node attributes are the three keys the builder
writes: `depth`, `field`, `birth_year`.  Nodes are kept in insertion order
(as NetworkX/Python dicts do); the edge set holds each ordered pair at
most once (NetworkX forbids parallel edges), every edge carrying the
constant attribute `relation = "inspired"`. -/

structure NodeAttrs where
  depth : Option Nat
  field : Option String
  birth_year : Option Int

/-- A node with no attributes yet (as created implicitly by `add_edge`). -/
def NodeAttrs.blank : NodeAttrs := ⟨none, none, none⟩

structure PyGraph where
  nodes : List (String × NodeAttrs)
  edges : List (String × String)

def PyGraph.empty : PyGraph := ⟨[], []⟩

/-- `n in graph.nodes`. -/
def PyGraph.hasNode (g : PyGraph) (n : String) : Bool :=
  g.nodes.any fun p => p.1 == n

/-- The attribute record of a node, if the node exists. -/
def PyGraph.attrs (g : PyGraph) (n : String) : Option NodeAttrs :=
  match g.nodes.find? (fun p => p.1 == n) with
  | some p => some p.2
  | none => none

/-- `graph.nodes[n].get('birth_year')` (absent node treated as no
attribute; every call site in the source guards node existence or has the
node freshly inserted). -/
def PyGraph.birth (g : PyGraph) (n : String) : Option Int :=
  (g.attrs n).bind (·.birth_year)

/-- `graph.nodes[n].get('depth')`. -/
def PyGraph.depth (g : PyGraph) (n : String) : Option Nat :=
  (g.attrs n).bind (·.depth)

/-- `graph.nodes[n].get('field')`. -/
def PyGraph.fieldOf (g : PyGraph) (n : String) : Option String :=
  (g.attrs n).bind (·.field)

/-- `graph.nodes[n]['birth_year'] = b` on an existing node. -/
def PyGraph.setBirth (g : PyGraph) (n : String) (b : Option Int) : PyGraph :=
  ⟨g.nodes.map fun p => if p.1 == n then (p.1, { p.2 with birth_year := b }) else p,
   g.edges⟩

/-- NetworkX `add_node(n, depth=…, field=…, birth_year=…)`: merges the
given attributes into an existing node, or appends a new node. -/
def PyGraph.add_node (g : PyGraph) (n : String) (d : Nat) (field : String)
    (birth : Option Int) : PyGraph :=
  let a : NodeAttrs := ⟨some d, some field, birth⟩
  if g.hasNode n then
    ⟨g.nodes.map fun p => if p.1 == n then (p.1, a) else p, g.edges⟩
  else
    ⟨g.nodes ++ [(n, a)], g.edges⟩

/-- Ensure an endpoint exists (NetworkX `add_edge` creates missing
endpoints as attribute-less nodes). -/
def PyGraph.ensureNode (g : PyGraph) (n : String) : PyGraph :=
  if g.hasNode n then g else ⟨g.nodes ++ [(n, NodeAttrs.blank)], g.edges⟩

/-- NetworkX `add_edge(u, v, relation="inspired")`: creates missing
endpoints, inserts the ordered pair if it is not already present (a
repeated insertion only rewrites the constant attribute). -/
def PyGraph.add_edge (g : PyGraph) (u v : String) : PyGraph :=
  let g := (g.ensureNode u).ensureNode v
  if g.edges.contains (u, v) then g else ⟨g.nodes, g.edges ++ [(u, v)]⟩

/-- `GraphBuilder.save_graph` followed by re-reading the file: the export
replaces `None` attribute values by defaults (`birth_year → 0`, textual
attributes → `""`); attributes that are absent altogether (a candidate's
missing `depth`) are simply not written.  The reloaded graph therefore
differs from the in-memory one exactly in those defaulted values. -/
def PyGraph.saveRoundtrip (g : PyGraph) : PyGraph :=
  ⟨g.nodes.map fun p =>
    (p.1, { p.2 with
      birth_year := match p.2.birth_year with
        | none => some 0
        | some b => some b }),
   g.edges⟩

/-! ## `graph_builder.py` — `GraphBuilder._is_chronologically_valid`

`wiki_client.extract_years` is the external date extractor: an oracle
`String → Option Int × Option Int` giving `(birth_year, death_year)`.
The function lazily resolves both birth years (persisting a successful
lazy fetch of the current subject's year back onto its node), fails open
when either year stays unresolved or is the falsy `0`, and otherwise
applies the 5-year margin in the direction of the claimed relation. -/

/-- Resolution of `current_birth` (step 1 of the source): the node's
attribute if truthy, else the external date extractor. -/
def resolveCurrentBirth (extract_years : String → Option Int × Option Int)
    (g : PyGraph) (current_node : String) : Option Int :=
  let attr := g.birth current_node
  if pyKnown attr then attr else (extract_years current_node).1

/-- Resolution of `target_birth` (step 2 of the source): the node's
attribute if the node exists and the attribute is truthy, else the
external date extractor (no write-back for the target). -/
def resolveTargetBirth (extract_years : String → Option Int × Option Int)
    (g : PyGraph) (target_node : String) : Option Int :=
  let attr := if g.hasNode target_node then g.birth target_node else none
  if pyKnown attr then attr else (extract_years target_node).1

/-- The graph after step 1's write-back: a lazily fetched, truthy
`current_birth` is stored back onto the current node. -/
def chronoWriteback (extract_years : String → Option Int × Option Int)
    (g : PyGraph) (current_node : String) : PyGraph :=
  if pyKnown (g.birth current_node) then g
  else if pyKnown (resolveCurrentBirth extract_years g current_node) then
    g.setBirth current_node (resolveCurrentBirth extract_years g current_node)
  else g

/-- The margin comparison of step 3, once both birth years are resolved
and truthy. -/
def chronoVerdict (relation_type : String) (cb tb : Int) : Bool :=
  let margin : Int := 5
  if relation_type == "inspired_by" then
    if tb > cb + margin then false else true
  else if relation_type == "inspired" then
    if tb < cb - margin then false else true
  else true

/-- `GraphBuilder._is_chronologically_valid`, returning the verdict
together with the graph after the step-1 write-back of a successfully
fetched `current_birth`.  (The source's step 2 reads the target from
`self.graph`, i.e. from the graph as mutated by step 1.) -/
def is_chronologically_valid_full (extract_years : String → Option Int × Option Int)
    (g : PyGraph) (current_node target_node : String) (relation_type : String) :
    Bool × PyGraph :=
  let current_birth := resolveCurrentBirth extract_years g current_node
  let g' := chronoWriteback extract_years g current_node
  let target_birth := resolveTargetBirth extract_years g' target_node
  if !(pyKnown current_birth) || !(pyKnown target_birth) then
    (true, g')
  else
    (chronoVerdict relation_type (current_birth.getD 0) (target_birth.getD 0), g')

/-- The Boolean verdict of `_is_chronologically_valid`. -/
def is_chronologically_valid (extract_years : String → Option Int × Option Int)
    (g : PyGraph) (current_node target_node : String) (relation_type : String) :
    Bool :=
  (is_chronologically_valid_full extract_years g current_node target_node relation_type).1

/-! ## `graph_builder.py` — `GraphBuilder._load_existing_graph`

Resume reconstruction from a successfully loaded persisted graph: nodes
carrying a `depth` attribute become the visited set, the others become
queue candidates whose depth is rebuilt from their visited neighbours.
(The surrounding file-existence / load-failure handling collapses to the
fresh `deque([(start, 0)])`, which needs no model beyond the claim that
the core below is what runs on a successful load.) -/

/-- Is a node visited on resume, i.e. does it carry a `depth` attribute? -/
def PyGraph.isVisited (g : PyGraph) (n : String) : Bool :=
  match g.attrs n with
  | some a => a.depth.isSome
  | none => false

/-- Is a node a resume candidate, i.e. a node without `depth`?  (Mirrors
membership in the `queue_candidates` dict.) -/
def PyGraph.isCandidate (g : PyGraph) (n : String) : Bool :=
  match g.attrs n with
  | some a => a.depth.isNone
  | none => false

/-- The visited names, in node order (`self.visited` as a set; order kept
for convenience of statement). -/
def visitedOf (g : PyGraph) : List String :=
  (g.nodes.filter fun p => p.2.depth.isSome).map (·.1)

/-- The candidate names in node order (the `queue_candidates` dict keys). -/
def candidateNames (g : PyGraph) : List String :=
  (g.nodes.filter fun p => p.2.depth.isNone).map (·.1)

/-- `graph.nodes[u].get('depth', 0)` for the parent of a candidate. -/
def parentDepthOf (g : PyGraph) (u : String) : Nat :=
  (g.depth u).getD 0

/-- `min(old, d)` where the old value may be the initial `inf` (`none`). -/
def mergeOne (o : Option Nat) (d : Nat) : Option Nat :=
  match o with
  | none => some d
  | some c => some (min c d)

/-- `queue_candidates[x] = min(queue_candidates[x], d)` where the initial
value is `inf` (modelled by `none`). -/
def updateMin (m : String → Option Nat) (x : String) (d : Nat) :
    String → Option Nat :=
  fun y => if y == x then mergeOne (m x) d else m y

/-- One iteration of the candidate-depth loop, for one directed edge
`(u, v)`: the `u (visité) → v (candidat)` branch, then the
`v (candidat) ← u` branch. -/
def candStep (g : PyGraph) (m : String → Option Nat) (e : String × String) :
    String → Option Nat :=
  let m1 :=
    if g.isVisited e.1 && g.isCandidate e.2 then
      updateMin m e.2 (parentDepthOf g e.1 + 1)
    else m
  if g.isCandidate e.1 && g.isVisited e.2 then
    updateMin m1 e.1 (parentDepthOf g e.2 + 1)
  else m1

/-- The candidate-depth map after the whole edge loop (`inf` = `none`). -/
def candMap (g : PyGraph) : String → Option Nat :=
  g.edges.foldl (candStep g) (fun _ => none)

/-- `valid_candidates` before sorting: the candidates with a finite depth,
in dict (node) order. -/
def validCandidates (g : PyGraph) : List (String × Nat) :=
  (candidateNames g).filterMap fun n => (candMap g n).map fun d => (n, d)

/-- The sort key used by `valid_candidates.sort(key=lambda x: x[1])`. -/
def byDepth (a b : String × Nat) : Prop := a.2 ≤ b.2

instance : DecidableRel byDepth := fun a b => inferInstanceAs (Decidable (a.2 ≤ b.2))

instance : IsTotal (String × Nat) byDepth := ⟨fun a b => Nat.le_total a.2 b.2⟩

instance : IsTrans (String × Nat) byDepth := ⟨fun _ _ _ h h' => Nat.le_trans h h'⟩

/-- The resumed queue: finite-depth candidates sorted by ascending depth. -/
def resumeQueue (g : PyGraph) : List (String × Nat) :=
  (validCandidates g).insertionSort byDepth

/-- Declarative counterpart, straight from the spec's words: the depth
contributions of one incident edge, namely `visited neighbour's depth + 1`
for an edge between the candidate `n` and a visited node, in either
direction. -/
def edgeContribs (g : PyGraph) (n : String) (e : String × String) : List Nat :=
  (if g.isVisited e.1 && g.isCandidate e.2 && (e.2 == n) then
    [parentDepthOf g e.1 + 1]
  else []) ++
  (if g.isCandidate e.1 && g.isVisited e.2 && (e.1 == n) then
    [parentDepthOf g e.2 + 1]
  else [])

/-- All contributions `(visited neighbour's depth + 1)` for candidate `n`
across the incident edges, in edge order. -/
def specContribs (g : PyGraph) (n : String) : List Nat :=
  g.edges.flatMap (edgeContribs g n)

/-- Minimum of a contribution list on top of an optional accumulator. -/
def optMinList (o : Option Nat) (l : List Nat) : Option Nat :=
  l.foldl mergeOne o

/-- Spec-side candidate depth: the minimum of `(visited neighbour's depth
+ 1)` over all incident edges in either direction, absent when there is no
visited neighbour. -/
def specCandidateDepth (g : PyGraph) (n : String) : Option Nat :=
  optMinList none (specContribs g n)

/-! ## `config.py` and `graph_builder.py` — the crawl loop

`build_influence_graph` runs a BFS over subjects.  The external world is
an oracle record: the Wikipedia text source, the field classifier, the
date extractor, the name filter's verdict (whose internals — regex
exclusion patterns plus a Wikipedia-category lookup — are a separate
component no claim touches), and the relation-extraction layer (the
`LLMExtractor` dict returned for the subject; non-string list entries are
dropped here because `_is_valid_name`'s `isinstance` check rejects them
unconditionally). -/

def MAX_DEPTH : Nat := 15

def MAX_SCIENTISTS : Nat := 1000

/-- `config.BLACKLIST`. -/
def BLACKLIST : List String :=
  ["Hitler", "Stalin", "Mussolini", "Mao", "Napoleon",
   "European Organization for Nuclear Research", "CERN",
   "Devesh Sharma",
   "Not specified in the text", "Unknown students", "Future scientists",
   "All rights reserved",
   "Many physicists", "European intellectuals", "French Catholic Church",
   "Lenin", "Trotsky", "Marx", "Engels", "Queen Victoria",
   "Chief Justice", "President", "Prime Minister", "General",
   "Rehnquist", "William Rehnquist",
   "Robert H. Jackson", "Jackson",
   "Scalia", "Ginsburg",
   "Pothan Joseph",
   "Gabriel Wigner",
   "Fyodor Dostoyevsky", "Charles Dickens", "Albert Camus",
   "François-René de Chateaubriand",
   "Napoleon Bonaparte", "Russian Tsarina Elizabeth Alexeievna",
   "Writer", "Novelist", "Diplomat",
   "Journalist", "Editor",
   "Jesus", "Muhammad", "Buddha", "God"]

/-- Python `str.lower()` (character-wise; the blacklist and the crawled
names are ASCII-cased). -/
def pyLower (s : String) : String := ⟨s.data.map Char.toLower⟩

/-- `any(bl.lower() in name.lower() for bl in BLACKLIST)`. -/
def blacklisted (name : String) : Bool :=
  BLACKLIST.any fun bl => strContains (pyLower bl) (pyLower name)

/-- Outcome of `wiki_client.get_scientist_text`: a raised exception, no
page, or `(wiki_text, links)`. -/
inductive FetchResult where
  | err
  | absent
  | found (text : String) (links : List String)

/-- The external collaborators of the crawl loop. -/
structure CrawlOracles where
  fetch : String → FetchResult
  get_scientific_field : String → Option String
  extract_years : String → Option Int × Option Int
  is_valid_name : String → Bool
  relations : String → Json

/-- Python truthiness of an optional string: `None` and `""` are falsy. -/
def pyStr (x : Option String) : Bool :=
  match x with
  | none => false
  | some s => s != ""

/-- The string entries of a JSON array (non-strings are dropped by the
`isinstance(name, str)` check of `_is_valid_name`). -/
def strEntries (j : Json) : List String :=
  match j with
  | .arr l =>
    l.filterMap fun x =>
      match x with
      | .str s => some s
      | _ => none
  | _ => []

/-- Field resolution (loop step: reuse a known, non-`Other` field, else
ask the classifier, defaulting to `Other`). -/
def resolveField (o : CrawlOracles) (g : PyGraph) (current : String) : String :=
  let field0 := if g.hasNode current then g.fieldOf current else none
  let field1 :=
    if !(pyStr field0) || (field0 == some "Other") then
      o.get_scientific_field current
    else field0
  if pyStr field1 then field1.getD "" else "Other"

/-- Birth-year resolution (loop step: reuse a truthy node attribute, else
ask the date extractor). -/
def resolveBirth (o : CrawlOracles) (g : PyGraph) (current : String) : Option Int :=
  let birth0 := if g.hasNode current then g.birth current else none
  if pyKnown birth0 then birth0 else (o.extract_years current).1

/-- The crawl state: the graph under construction, the visited set (as an
insertion-ordered duplicate-free list), the BFS deque, and the log of
autosave events (each entry records `len(self.visited)` at the moment
`save_graph` ran). -/
structure CrawlState where
  graph : PyGraph
  visited : List String
  queue : List (String × Nat)
  saveLog : List Nat

/-- `self.visited.add current` (set semantics). -/
def insertVisited (l : List String) (n : String) : List String :=
  if l.contains n then l else l ++ [n]

/-- Processing of one extracted name `person` in the relation loops
(steps 5 and 6 of `build_influence_graph`), threading the graph and the
queue: skip the subject itself, filter through `_is_valid_name`, validate
chronology (whose lazy fetch may write a birth year back into the graph),
then insert the directed edge and enqueue the person if unvisited.
`relation_type` is the string passed to `_is_chronologically_valid`
(either `"inspired_by"` or `"inspired"`), which also fixes the edge
direction. -/
def processPerson (o : CrawlOracles) (current : String) (depth : Nat)
    (visited : List String) (relation_type : String)
    (acc : PyGraph × List (String × Nat)) (person : String) :
    PyGraph × List (String × Nat) :=
  let (g, q) := acc
  if person == current then acc
  else if o.is_valid_name person then
    let res := is_chronologically_valid_full o.extract_years g current person relation_type
    if res.1 then
      let g' :=
        if relation_type == "inspired_by" then res.2.add_edge person current
        else res.2.add_edge current person
      let q' := if !(visited.contains person) then q ++ [(person, depth + 1)] else q
      (g', q')
    else (res.2, q)
  else acc

/-- One iteration of the `while` loop of `build_influence_graph`: dequeue
one `(current, depth)` entry and process it (the guard of the `while`
itself lives in `crawlLoop`). -/
def crawlStep (o : CrawlOracles) (st : CrawlState) : CrawlState :=
  match st.queue with
  | [] => st
  | (current, depth) :: rest =>
    let st := { st with queue := rest }
    -- 1. preliminary checks
    if st.visited.contains current then st
    else if depth > MAX_DEPTH then st
    else if blacklisted current then st
    else
      -- 2. text retrieval
      match o.fetch current with
      | .err => st
      | .absent => st
      | .found _text _links =>
        let field := resolveField o st.graph current
        -- 3. mark visited, upsert the node
        let visited' := insertVisited st.visited current
        let birth := resolveBirth o st.graph current
        let g1 := st.graph.add_node current depth field birth
        if depth == MAX_DEPTH then
          -- leaf: no expansion, and note: no autosave check either
          { st with graph := g1, visited := visited' }
        else
          -- 4.–6. relation extraction and the two relation loops
          let rel := o.relations current
          let inspirations := strEntries (rel.getD "inspired_by" (Json.arr []))
          let inspired_list := strEntries (rel.getD "inspired" (Json.arr []))
          let gq1 := inspirations.foldl
            (processPerson o current depth visited' "inspired_by") (g1, rest)
          let gq2 := inspired_list.foldl
            (processPerson o current depth visited' "inspired") gq1
          -- autosave every 20 visited subjects
          let saves :=
            if visited'.length % 20 == 0 then st.saveLog ++ [visited'.length]
            else st.saveLog
          { graph := gq2.1, visited := visited', queue := gq2.2, saveLog := saves }

/-- The `while queue and len(self.visited) < MAX_SCIENTISTS` loop, with
explicit fuel (each dequeue consumes one unit).  After the loop the
source prints totals and returns the graph — it performs no further
`save_graph` call, so the state is returned unchanged on exit. -/
def crawlLoop (o : CrawlOracles) : Nat → CrawlState → CrawlState
  | 0, st => st
  | fuel + 1, st =>
    if !st.queue.isEmpty && st.visited.length < MAX_SCIENTISTS then
      crawlLoop o fuel (crawlStep o st)
    else st

/-- `build_influence_graph` on a fresh start (no persisted file): the
queue holds `(start_scientist, 0)` and nothing is visited. -/
def buildFresh (o : CrawlOracles) (fuel : Nat) (start_scientist : String) :
    CrawlState :=
  crawlLoop o fuel ⟨PyGraph.empty, [], [(start_scientist, 0)], []⟩

/-- `build_influence_graph` resuming from a successfully loaded persisted
graph: visited and queue come from `_load_existing_graph`. -/
def buildResumed (o : CrawlOracles) (fuel : Nat) (g : PyGraph) : CrawlState :=
  crawlLoop o fuel ⟨g, visitedOf g, resumeQueue g, []⟩

/-! ## `scripts/advanced_validator.py` — the offline confidence scorer

Wikidata (SPARQL id lookup and ASK relation queries) and the Wikipedia
co-occurrence check are network services, passed in as oracles; the
scorer's own disk cache is transparent (a cached value is by construction
a previously computed score).  Python float arithmetic is modelled over
exact rationals; `round(x, 3)` is modelled as exact round-half-to-even at
three decimals. -/

/-- `WEIGHTS` of `advanced_validator.py`. -/
def W_DOCTORAL : Rat := 35 / 100

def W_INFLUENCE : Rat := 25 / 100

def W_TEMPORAL : Rat := 25 / 100

def W_COOCCURRENCE : Rat := 15 / 100

def MIN_CONFIDENCE_THRESHOLD : Rat := 4 / 10

/-- Round half to even at integer precision. -/
def roundHalfEven (x : Rat) : Int :=
  let n := ⌊x⌋
  let frac := x - n
  if frac < 1 / 2 then n
  else if 1 / 2 < frac then n + 1
  else if n % 2 = 0 then n else n + 1

/-- Python `round(x, 3)` on the exact rational value. -/
def pyRound3 (x : Rat) : Rat := (roundHalfEven (x * 1000) : Rat) / 1000

/-- `AdvancedValidator.check_temporal_plausibility`: the staged
birth-year-gap buckets, neutral `0.5` when the graph is missing or either
birth year is unknown (`None` or the falsy `0`). -/
def check_temporal_plausibility (graphLoaded : Bool)
    (source_birth target_birth : Option Int) : Rat :=
  if !graphLoaded then 1 / 2
  else if !(pyKnown source_birth) || !(pyKnown target_birth) then 1 / 2
  else
    let birth_diff := source_birth.getD 0 - target_birth.getD 0
    if birth_diff < -50 then 0
    else if birth_diff < 0 then 2 / 10
    else if birth_diff < 20 then 7 / 10
    else if birth_diff < 50 then 1
    else if birth_diff < 100 then 8 / 10
    else if birth_diff < 200 then 6 / 10
    else 4 / 10

/-- Outcome of the Wikipedia co-occurrence probe: either the lookup raised
somewhere (the `except` arm sets the score to `0.25`), or both page checks
completed with the given existence/mention facts. -/
inductive CooccurOutcome where
  | raised
  | pages (srcExists srcMentions tgtExists tgtMentions : Bool)

/-- `AdvancedValidator.check_wikipedia_cooccurrence`: `0.5` per direction
in which one subject's page mentions the other, `0.25` on a raised
exception. -/
def check_wikipedia_cooccurrence (outcome : CooccurOutcome) : Rat :=
  match outcome with
  | .raised => 1 / 4
  | .pages se sm te tm =>
    (if se && sm then (1 : Rat) / 2 else 0) + (if te && tm then (1 : Rat) / 2 else 0)

/-- The four per-signal scores of a validation result. -/
structure ValidationScores where
  wikidata_doctoral : Rat
  wikidata_influence : Rat
  temporal_plausibility : Rat
  cooccurrence : Rat

/-- The weighted combination (step 4 of `validate_and_score`). -/
def weightedConfidence (s : ValidationScores) : Rat :=
  s.wikidata_doctoral * W_DOCTORAL + s.wikidata_influence * W_INFLUENCE +
    s.temporal_plausibility * W_TEMPORAL + s.cooccurrence * W_COOCCURRENCE

/-- The dict returned by `validate_and_score` (evidence strings omitted:
they are prints with no algorithmic content). -/
structure ValidationResult where
  source : String
  target : String
  scores : ValidationScores
  confidence : Rat
  keep : Bool

/-- The external services consulted by `validate_and_score`. -/
structure ValidatorOracles where
  find_wikidata_id : String → Option String
  check_wikidata_relation : String → String → Bool × Bool
  graphLoaded : Bool
  birthOf : String → Option Int
  cooccur : String → String → CooccurOutcome

/-- `AdvancedValidator.validate_and_score`. -/
def validate_and_score (o : ValidatorOracles) (source_name target_name : String) :
    ValidationResult :=
  -- 1. Wikidata validation
  let kb :=
    match o.find_wikidata_id source_name, o.find_wikidata_id target_name with
    | some sid, some tid => o.check_wikidata_relation sid tid
    | _, _ => (false, false)
  let s_doctoral : Rat := if kb.1 then 1 else 0
  let s_influence : Rat := if kb.2 then 1 else 0
  -- 2. temporal plausibility
  let s_temporal :=
    check_temporal_plausibility o.graphLoaded (o.birthOf source_name)
      (o.birthOf target_name)
  -- 3. co-occurrence, only when neither KB signal fired
  let s_cooccur : Rat :=
    if s_doctoral == 0 && s_influence == 0 then
      check_wikipedia_cooccurrence (o.cooccur source_name target_name)
    else 0
  -- 4. weighted confidence and keep decision
  let scores : ValidationScores := ⟨s_doctoral, s_influence, s_temporal, s_cooccur⟩
  let confidence := weightedConfidence scores
  { source := source_name
    target := target_name
    scores := scores
    confidence := pyRound3 confidence
    keep := decide (confidence ≥ MIN_CONFIDENCE_THRESHOLD) }

/-! ## Theorems -/

/-- Claim C6: with margin 5 and both birth years known (attached to the
graph nodes and nonzero), the chronology check for direction
`"inspired_by"` rejects exactly when the candidate's birth year exceeds
the current subject's birth year plus 5 — so a candidate born exactly
`current_birth + 5` is admitted and one born `current_birth + 6` is
rejected. -/
theorem c6_chronology_boundary
    (ey : String → Option Int × Option Int) (g : PyGraph)
    (current target : String) (cb tb : Int)
    (hc : g.birth current = some cb) (hc0 : cb ≠ 0)
    (ht : g.hasNode target = true) (htb : g.birth target = some tb) (ht0 : tb ≠ 0) :
    is_chronologically_valid ey g current target "inspired_by"
      = decide (tb ≤ cb + 5) := by
  unfold is_chronologically_valid is_chronologically_valid_full
  have hck : pyKnown (some cb) = true := by simp [pyKnown, hc0]
  have htk : pyKnown (some tb) = true := by simp [pyKnown, ht0]
  have h1 : resolveCurrentBirth ey g current = some cb := by
    simp [resolveCurrentBirth, hc, hck]
  have h2 : chronoWriteback ey g current = g := by
    simp [chronoWriteback, hc, hck]
  have h3 : resolveTargetBirth ey g target = some tb := by
    simp [resolveTargetBirth, ht, htb, htk]
  simp only [h1, h2, h3, hck, htk, Bool.not_true, Bool.or_self,
    Bool.false_eq_true, if_false, Option.getD_some]
  unfold chronoVerdict
  simp only [show ("inspired_by" == "inspired_by") = true from rfl, if_true]
  by_cases h : tb > cb + 5
  · rw [if_pos h]
    exact (decide_eq_false (by omega)).symm
  · rw [if_neg h]
    exact (decide_eq_true (by omega)).symm

/-- Claim C6 witness: at `current_birth = 1900`, a candidate born 1905 is
admitted and a candidate born 1906 is rejected. -/
theorem c6_chronology_boundary_witness :
    is_chronologically_valid (fun _ => (none, none))
      ⟨[("A", ⟨some 0, none, some 1900⟩), ("B", ⟨none, none, some 1905⟩)], []⟩
      "A" "B" "inspired_by" = true
    ∧ is_chronologically_valid (fun _ => (none, none))
      ⟨[("A", ⟨some 0, none, some 1900⟩), ("C", ⟨none, none, some 1906⟩)], []⟩
      "A" "C" "inspired_by" = false := by
  constructor
  · rw [c6_chronology_boundary (fun _ => (none, none)) _ "A" "B" 1900 1905
      (by decide) (by decide) (by decide) (by decide) (by decide)]
    decide
  · rw [c6_chronology_boundary (fun _ => (none, none)) _ "A" "C" 1900 1906
      (by decide) (by decide) (by decide) (by decide) (by decide)]
    decide

/-- Claim C7: the chronology check is fail-open — whenever either the
current subject's or the candidate's birth year stays unresolved (absent
or the falsy 0, after the lazy external fetch), it returns true, for every
relation direction and regardless of all other inputs. -/
theorem c7_fail_open
    (ey : String → Option Int × Option Int) (g : PyGraph)
    (current target relation_type : String)
    (h : pyKnown (resolveCurrentBirth ey g current) = false
       ∨ pyKnown (resolveTargetBirth ey (chronoWriteback ey g current) target)
           = false) :
    is_chronologically_valid ey g current target relation_type = true := by
  unfold is_chronologically_valid is_chronologically_valid_full
  rcases h with h | h <;> simp [h]

/-- Claim C7 witness: with an empty graph and a date extractor that finds
nothing, the check admits the relation in both directions. -/
theorem c7_fail_open_witness :
    is_chronologically_valid (fun _ => (none, none)) PyGraph.empty
      "A" "B" "inspired_by" = true
    ∧ is_chronologically_valid (fun _ => (none, none)) PyGraph.empty
      "A" "B" "inspired" = true := by
  constructor
  · exact c7_fail_open (fun _ => (none, none)) PyGraph.empty "A" "B" "inspired_by"
      (Or.inl (by decide))
  · exact c7_fail_open (fun _ => (none, none)) PyGraph.empty "A" "B" "inspired"
      (Or.inl (by decide))

/-- `find?` by key commutes with a key-preserving map. -/
theorem find_map_keyfix (f : (String × NodeAttrs) → (String × NodeAttrs))
    (hf : ∀ p, (f p).1 = p.1) (l : List (String × NodeAttrs)) (m : String) :
    (l.map f).find? (fun p => p.1 == m)
      = (l.find? (fun p => p.1 == m)).map f := by
  induction l with
  | nil => rfl
  | cons a l ih =>
    simp only [List.map_cons, List.find?]
    rw [hf a]
    cases h : (a.1 == m) <;> simp [h, ih]

theorem attrs_setBirth (g : PyGraph) (n : String) (b : Option Int) (m : String) :
    (g.setBirth n b).attrs m
      = if m = n then (g.attrs m).map (fun a => { a with birth_year := b })
        else g.attrs m := by
  unfold PyGraph.setBirth PyGraph.attrs
  rw [find_map_keyfix _ (fun p => by dsimp only; split <;> rfl)]
  cases h : g.nodes.find? (fun p => p.1 == m) with
  | none => simp
  | some p =>
    have hp := List.find?_some h
    have hp' : p.1 = m := by simpa using hp
    by_cases hmn : m = n
    · simp [hp', hmn]
    · simp [hp', hmn]

theorem birth_setBirth (g : PyGraph) (n : String) (b : Option Int) (m : String) :
    (g.setBirth n b).birth m
      = if m = n then (if (g.attrs m).isSome then b else none) else g.birth m := by
  unfold PyGraph.birth
  rw [attrs_setBirth]
  by_cases hmn : m = n
  · cases h : g.attrs m <;> simp [hmn, h]
  · simp [hmn]

theorem hasNode_setBirth (g : PyGraph) (n : String) (b : Option Int) (m : String) :
    (g.setBirth n b).hasNode m = g.hasNode m := by
  unfold PyGraph.setBirth PyGraph.hasNode
  rw [List.any_map]
  congr 1
  funext p
  dsimp only [Function.comp]
  split <;> rfl

theorem attrs_saveRoundtrip (g : PyGraph) (m : String) :
    g.saveRoundtrip.attrs m
      = (g.attrs m).map
          (fun a => { a with birth_year := some (a.birth_year.getD 0) }) := by
  unfold PyGraph.saveRoundtrip PyGraph.attrs
  rw [find_map_keyfix
        (fun p =>
          (p.1,
            { p.2 with
              birth_year :=
                match p.2.birth_year with
                | none => some 0
                | some b => some b }))
        (fun p => rfl)]
  cases h : g.nodes.find? (fun p => p.1 == m) with
  | none => simp
  | some p =>
    cases hb : p.2.birth_year <;> simp [hb]

theorem hasNode_saveRoundtrip (g : PyGraph) (m : String) :
    g.saveRoundtrip.hasNode m = g.hasNode m := by
  unfold PyGraph.saveRoundtrip PyGraph.hasNode
  rw [List.any_map]
  congr 1

theorem hasNode_eq_isSome (g : PyGraph) (m : String) :
    g.hasNode m = (g.attrs m).isSome := by
  unfold PyGraph.hasNode PyGraph.attrs
  induction g.nodes with
  | nil => rfl
  | cons a l ih =>
    simp only [List.any_cons, List.find?]
    cases h : (a.1 == m) <;> simp [h, ih]

/-- Two graphs agreeing on node presence and on births up to Python
truthiness (`None` and 0 interchangeable). -/
def birthEquiv (g₁ g₂ : PyGraph) : Prop :=
  ∀ m, g₁.hasNode m = g₂.hasNode m
    ∧ pyKnown (g₁.birth m) = pyKnown (g₂.birth m)
    ∧ (pyKnown (g₁.birth m) = true → g₁.birth m = g₂.birth m)

theorem resolveCurrent_congr (ey : String → Option Int × Option Int)
    {g₁ g₂ : PyGraph} (h : birthEquiv g₁ g₂) (c : String) :
    resolveCurrentBirth ey g₁ c = resolveCurrentBirth ey g₂ c := by
  obtain ⟨-, hk, he⟩ := h c
  cases hb : pyKnown (g₁.birth c) with
  | true =>
    have hb₂ : pyKnown (g₂.birth c) = true := by rw [← hk, hb]
    simp only [resolveCurrentBirth, hb, hb₂, if_true, he hb]
  | false =>
    have hb₂ : pyKnown (g₂.birth c) = false := by rw [← hk, hb]
    simp [resolveCurrentBirth, hb, hb₂]

theorem resolveTarget_congr (ey : String → Option Int × Option Int)
    {g₁ g₂ : PyGraph} (h : birthEquiv g₁ g₂) (t : String) :
    resolveTargetBirth ey g₁ t = resolveTargetBirth ey g₂ t := by
  obtain ⟨hn, hk, he⟩ := h t
  cases hex : g₁.hasNode t with
  | false =>
    have hex₂ : g₂.hasNode t = false := by rw [← hn, hex]
    simp [resolveTargetBirth, hex, hex₂]
  | true =>
    have hex₂ : g₂.hasNode t = true := by rw [← hn, hex]
    cases hb : pyKnown (g₁.birth t) with
    | true =>
      have hb₂ : pyKnown (g₂.birth t) = true := by rw [← hk, hb]
      simp only [resolveTargetBirth, hex, hex₂, if_true, hb, hb₂, he hb]
    | false =>
      have hb₂ : pyKnown (g₂.birth t) = false := by rw [← hk, hb]
      simp [resolveTargetBirth, hex, hex₂, hb, hb₂]

theorem setBirth_preserves_equiv {g₁ g₂ : PyGraph} (h : birthEquiv g₁ g₂)
    (n : String) (b : Option Int) :
    birthEquiv (g₁.setBirth n b) (g₂.setBirth n b) := by
  intro m
  obtain ⟨hn, hk, he⟩ := h m
  have hs : (g₁.attrs m).isSome = (g₂.attrs m).isSome := by
    rw [← hasNode_eq_isSome, ← hasNode_eq_isSome, hn]
  refine ⟨by rw [hasNode_setBirth, hasNode_setBirth, hn], ?_, ?_⟩
  · rw [birth_setBirth, birth_setBirth]
    by_cases hmn : m = n
    · rw [if_pos hmn, if_pos hmn, hs]
    · rw [if_neg hmn, if_neg hmn]; exact hk
  · intro hkn
    rw [birth_setBirth, birth_setBirth]
    by_cases hmn : m = n
    · rw [if_pos hmn, if_pos hmn, hs]
    · rw [if_neg hmn, if_neg hmn]
      rw [birth_setBirth, if_neg hmn] at hkn
      exact he hkn

theorem writeback_preserves_equiv (ey : String → Option Int × Option Int)
    {g₁ g₂ : PyGraph} (h : birthEquiv g₁ g₂) (c : String) :
    birthEquiv (chronoWriteback ey g₁ c) (chronoWriteback ey g₂ c) := by
  have hres := resolveCurrent_congr ey h c
  obtain ⟨-, hk, -⟩ := h c
  cases hb : pyKnown (g₁.birth c) with
  | true =>
    have hb₂ : pyKnown (g₂.birth c) = true := by rw [← hk, hb]
    simpa [chronoWriteback, hb, hb₂] using h
  | false =>
    have hb₂ : pyKnown (g₂.birth c) = false := by rw [← hk, hb]
    cases hr : pyKnown (resolveCurrentBirth ey g₁ c) with
    | true =>
      have hr₂ : pyKnown (resolveCurrentBirth ey g₂ c) = true := by
        rw [← hres, hr]
      simp only [chronoWriteback, hb, hb₂, hr, hr₂, Bool.false_eq_true,
        if_false, if_true, ← hres]
      exact setBirth_preserves_equiv h c _
    | false =>
      have hr₂ : pyKnown (resolveCurrentBirth ey g₂ c) = false := by
        rw [← hres, hr]
      simpa [chronoWriteback, hb, hb₂, hr, hr₂] using h

/-- The chronology verdict depends on the graph only through the two
resolved birth years. -/
theorem valid_eq_of_resolved (ey : String → Option Int × Option Int)
    (g₁ g₂ : PyGraph) (c t r : String)
    (h1 : resolveCurrentBirth ey g₁ c = resolveCurrentBirth ey g₂ c)
    (h2 : resolveTargetBirth ey (chronoWriteback ey g₁ c) t
        = resolveTargetBirth ey (chronoWriteback ey g₂ c) t) :
    is_chronologically_valid ey g₁ c t r = is_chronologically_valid ey g₂ c t r := by
  unfold is_chronologically_valid is_chronologically_valid_full
  simp only [h1, h2, apply_ite Prod.fst]

/-- Claim C10: a birth year equal to 0 behaves exactly like an absent
birth year in the chronology check (absence is tested by Python
truthiness), and consequently a node whose unknown `birth_year` was
serialized as the numeric default 0 by checkpointing is still handled
fail-open after the persisted graph is reloaded: if the year also stays
unresolvable externally, every relation involving that node is admitted,
whichever side it is on and whichever the direction. -/
theorem c10_zero_birth_is_unknown :
    (∀ (ey : String → Option Int × Option Int) (g : PyGraph)
        (n current target rel : String),
      is_chronologically_valid ey (g.setBirth n (some 0)) current target rel
        = is_chronologically_valid ey (g.setBirth n none) current target rel)
    ∧ (∀ (ey : String → Option Int × Option Int) (g : PyGraph)
        (n current target rel : String),
      g.hasNode n = true → g.birth n = none → pyKnown (ey n).1 = false →
      (n = current ∨ n = target) →
      is_chronologically_valid ey g.saveRoundtrip current target rel = true) := by
  constructor
  · intro ey g n current target rel
    have hequiv : birthEquiv (g.setBirth n (some 0)) (g.setBirth n none) := by
      intro m
      refine ⟨by rw [hasNode_setBirth, hasNode_setBirth], ?_, ?_⟩
      · rw [birth_setBirth, birth_setBirth]
        by_cases hmn : m = n
        · rw [if_pos hmn, if_pos hmn]
          cases (g.attrs m).isSome <;> simp [pyKnown]
        · rw [if_neg hmn, if_neg hmn]
      · intro hkn
        rw [birth_setBirth] at hkn ⊢
        rw [birth_setBirth]
        by_cases hmn : m = n
        · rw [if_pos hmn] at hkn
          exfalso
          revert hkn
          cases (g.attrs m).isSome <;> simp [pyKnown]
        · rw [if_neg hmn] at hkn ⊢
          rw [if_neg hmn]
    exact valid_eq_of_resolved ey _ _ current target rel
      (resolveCurrent_congr ey hequiv current)
      (resolveTarget_congr ey (writeback_preserves_equiv ey hequiv current) target)
  · intro ey g n current target rel hnode hbirth hey hor
    have hrt_birth : g.saveRoundtrip.birth n = some 0 := by
      unfold PyGraph.birth
      rw [attrs_saveRoundtrip]
      have hsome : (g.attrs n).isSome = true := by
        rw [← hasNode_eq_isSome]; exact hnode
      obtain ⟨a, ha⟩ := Option.isSome_iff_exists.mp hsome
      have hb : a.birth_year = none := by
        have hb' := hbirth
        unfold PyGraph.birth at hb'
        rw [ha] at hb'
        simpa using hb'
      rw [ha]
      simp [hb]
    have hrt_has : g.saveRoundtrip.hasNode n = true := by
      rw [hasNode_saveRoundtrip]; exact hnode
    apply c7_fail_open
    have h0 : pyKnown (some (0 : Int)) = false := rfl
    rcases hor with rfl | rfl
    · left
      simp only [resolveCurrentBirth, hrt_birth, h0, Bool.false_eq_true, if_false]
      exact hey
    · right
      -- the write-back never makes the target's year truthy
      have hwb : pyKnown ((chronoWriteback ey g.saveRoundtrip current).birth n)
          = false := by
        unfold chronoWriteback
        by_cases hkc : pyKnown (g.saveRoundtrip.birth current) = true
        · rw [if_pos hkc, hrt_birth]; rfl
        · rw [if_neg hkc]
          by_cases hr : pyKnown (resolveCurrentBirth ey g.saveRoundtrip current)
              = true
          · rw [if_pos hr]
            by_cases hcn : n = current
            · exfalso
              rw [← hcn] at hr
              have hres0 : resolveCurrentBirth ey g.saveRoundtrip n = (ey n).1 := by
                simp only [resolveCurrentBirth, hrt_birth, h0, Bool.false_eq_true,
                  if_false]
              rw [hres0, hey] at hr
              exact Bool.false_ne_true hr
            · rw [birth_setBirth]
              rw [if_neg hcn, hrt_birth]
              rfl
          · rw [if_neg hr, hrt_birth]
            rfl
      have hwb_has : (chronoWriteback ey g.saveRoundtrip current).hasNode n
          = true := by
        unfold chronoWriteback
        by_cases hkc : pyKnown (g.saveRoundtrip.birth current) = true
        · rw [if_pos hkc]; exact hrt_has
        · rw [if_neg hkc]
          by_cases hr : pyKnown (resolveCurrentBirth ey g.saveRoundtrip current)
              = true
          · rw [if_pos hr, hasNode_setBirth]; exact hrt_has
          · rw [if_neg hr]; exact hrt_has
      simp [resolveTargetBirth, hwb, hwb_has, hey]

/-- Claim C10 witness: a node persisted with unknown birth year (reloaded
as 0) on the current side of an `inspired_by` relation, with the external
extractor still silent, is admitted. -/
theorem c10_zero_birth_is_unknown_witness :
    is_chronologically_valid (fun _ => (none, none))
      ((⟨[("N", ⟨some 3, none, none⟩)], []⟩ : PyGraph).saveRoundtrip)
      "N" "T" "inspired_by" = true :=
  c10_zero_birth_is_unknown.2 (fun _ => (none, none))
    ⟨[("N", ⟨some 3, none, none⟩)], []⟩ "N" "N" "T" "inspired_by"
    (by decide) (by decide) (by decide) (Or.inl rfl)

/-- Key lookup in a filtered store, under duplicate-free file names. -/
theorem read_filter_version (entries : List (CacheKey × CacheEntry)) (old : String)
    (hnodup : (entries.map (·.1)).Nodup) (k : CacheKey) :
    (CacheStore.read ⟨entries.filter (fun p => !(p.2.prompt_version == old))⟩ k)
      = match CacheStore.read ⟨entries⟩ k with
        | none => none
        | some e => if e.prompt_version == old then none else some e := by
  induction entries with
  | nil => rfl
  | cons a l ih =>
    have hnodup' : (a.1 :: l.map (·.1)).Nodup := by simpa using hnodup
    have hnotmem : a.1 ∉ l.map (·.1) := (List.nodup_cons.mp hnodup').1
    have hnd : (l.map (·.1)).Nodup := (List.nodup_cons.mp hnodup').2
    simp only [CacheStore.read]
    by_cases hk : (a.1 == k) = true
    · rw [List.find?_cons_of_pos l (by exact hk)]
      by_cases hv : (a.2.prompt_version == old) = true
      · have hfilcons : (a :: l).filter (fun p => !(p.2.prompt_version == old))
            = l.filter (fun p => !(p.2.prompt_version == old)) := by
          simp [List.filter_cons, hv]
        rw [hfilcons]
        have hfil : (l.filter (fun p => !(p.2.prompt_version == old))).find?
            (fun p => p.1 == k) = none := by
          rw [List.find?_eq_none]
          intro x hx hpx
          refine absurd ?_ hnotmem
          have hx1 : x.1 = a.1 := (eq_of_beq hpx).trans (eq_of_beq hk).symm
          rw [← hx1]
          exact List.mem_map_of_mem (·.1) (List.mem_filter.mp hx).1
        rw [hfil]
        simp [hv]
      · have hfilcons : (a :: l).filter (fun p => !(p.2.prompt_version == old))
            = a :: l.filter (fun p => !(p.2.prompt_version == old)) := by
          simp [List.filter_cons, hv]
        rw [hfilcons, List.find?_cons_of_pos (l.filter (fun p => !(p.2.prompt_version == old))) (by exact hk)]
        simp [hv]
    · rw [List.find?_cons_of_neg l (by exact hk)]
      by_cases hv : (a.2.prompt_version == old) = true
      · have hfilcons : (a :: l).filter (fun p => !(p.2.prompt_version == old))
            = l.filter (fun p => !(p.2.prompt_version == old)) := by
          simp [List.filter_cons, hv]
        rw [hfilcons]
        exact ih hnd
      · have hfilcons : (a :: l).filter (fun p => !(p.2.prompt_version == old))
            = a :: l.filter (fun p => !(p.2.prompt_version == old)) := by
          simp [List.filter_cons, hv]
        rw [hfilcons, List.find?_cons_of_neg (l.filter (fun p => !(p.2.prompt_version == old))) (by exact hk)]
        exact ih hnd

/-- Claim C3: cache round-trip and version invalidation.  For a fixed
(subject, text, policy version): `get` after `set` returns exactly the
stored result; a second `set` makes the later result the one returned;
bumping the policy version turns the previously hit key into a miss while
the old entry file stays on disk; and `invalidate_version old` deletes
exactly the entries stored under `old` (returning their count), leaving
every other entry readable. -/
theorem c3_cache_roundtrip :
    (∀ (mgr : CacheManager) (store : CacheStore) (text name : String)
        (r : Json) (now : Nat),
      (mgr.get (mgr.set store text name r now) text name).1 = some r)
    ∧ (∀ (mgr : CacheManager) (store : CacheStore) (text name : String)
        (r₁ r₂ : Json) (n₁ n₂ : Nat),
      (mgr.get (mgr.set (mgr.set store text name r₁ n₁) text name r₂ n₂)
          text name).1 = some r₂)
    ∧ (∀ (mgr : CacheManager) (text name : String) (r : Json) (now : Nat)
        (v₂ : String), v₂ ≠ mgr.prompt_version →
      (({ mgr with prompt_version := v₂ } : CacheManager).get
          (mgr.set CacheStore.empty text name r now) text name).1 = none
      ∧ (mgr.set CacheStore.empty text name r now).read
          (mgr.generate_key text name)
          = some ⟨name, mgr.prompt_version, text, text.length, r, now⟩)
    ∧ (∀ (store : CacheStore) (old : String),
      (store.entries.map (·.1)).Nodup →
      (CacheManager.invalidate_version store old).2
        = (store.entries.filter (fun p => p.2.prompt_version == old)).length
      ∧ ∀ k e, store.read k = some e →
          (CacheManager.invalidate_version store old).1.read k
            = if e.prompt_version == old then none else some e) := by
  refine ⟨?_, ?_, ?_, ?_⟩
  · intro mgr store text name r now
    simp [CacheManager.get, CacheManager.set, CacheStore.read, CacheStore.write]
  · intro mgr store text name r₁ r₂ n₁ n₂
    simp [CacheManager.get, CacheManager.set, CacheStore.read, CacheStore.write]
  · intro mgr text name r now v₂ hneq
    have hkeys : (CacheManager.generate_key { mgr with prompt_version := v₂ }
          text name)
        ≠ mgr.generate_key text name := by
      intro h
      exact hneq (congrArg (fun k => k.2.1) h)
    constructor
    · have hbeq : ((mgr.generate_key text name)
          == (CacheManager.generate_key { mgr with prompt_version := v₂ }
                text name)) = false :=
        beq_eq_false_iff_ne.mpr (fun h => hkeys h.symm)
      simp [CacheManager.get, CacheManager.set, CacheStore.read,
        CacheStore.write, CacheStore.empty, hbeq]
    · simp [CacheManager.set, CacheStore.read, CacheStore.write,
        CacheStore.empty]
  · intro store old hnodup
    refine ⟨rfl, ?_⟩
    intro k e hread
    have := read_filter_version store.entries old hnodup k
    unfold CacheManager.invalidate_version
    simp only []
    rw [show (⟨store.entries.filter
          (fun p => !(p.2.prompt_version == old))⟩ : CacheStore).read k
        = _ from this]
    have : CacheStore.read ⟨store.entries⟩ k = some e := hread
    rw [this]

/-- Claim C3 witness: concrete round-trip on the default manager, a
version bump to "v9" missing while the file survives, and invalidation of
the old version on that one-entry store. -/
theorem c3_cache_roundtrip_witness :
    ((CacheManager.init.get
        (CacheManager.init.set CacheStore.empty "tt" "nn" (Json.num 1) 7)
        "tt" "nn").1 = some (Json.num 1))
    ∧ ((CacheManager.init.get
        (CacheManager.init.set
          (CacheManager.init.set CacheStore.empty "tt" "nn" (Json.num 1) 7)
          "tt" "nn" (Json.num 2) 8) "tt" "nn").1 = some (Json.num 2))
    ∧ (({ CacheManager.init with prompt_version := "v9" } : CacheManager).get
        (CacheManager.init.set CacheStore.empty "tt" "nn" (Json.num 1) 7)
        "tt" "nn").1 = none := by
  refine ⟨c3_cache_roundtrip.1 CacheManager.init CacheStore.empty "tt" "nn"
      (Json.num 1) 7,
    c3_cache_roundtrip.2.1 CacheManager.init CacheStore.empty "tt" "nn"
      (Json.num 1) (Json.num 2) 7 8,
    (c3_cache_roundtrip.2.2.1 CacheManager.init "tt" "nn" (Json.num 1) 7 "v9"
      (by decide)).1⟩

/-! ### C8 / C1 — response parsing and the degrade path -/

/-- Concrete parsed object for the C8 counterexample. -/
def objA : Json := Json.obj [("a", Json.num 1)]

/-- A responder output wrapping a JSON object in prose. -/
def resp8 : String :=
  "x" ++ String.singleton braceOpen ++ "\"a\": 1" ++ String.singleton braceClose
    ++ "y"

/-- The brace-delimited slice of `resp8`. -/
def slice8 : String :=
  String.singleton braceOpen ++ "\"a\": 1" ++ String.singleton braceClose

/-- A concrete `json.loads` behaviour: decodes exactly `slice8`. -/
def loads8 : String → Option Json :=
  fun s => if s == slice8 then some objA else none

/-- Claim C8 counterexample: for a responder output whose brace slice
parses to an object carrying none of the relation keys, the parsing step
returns that parsed object, not the empty relation set — refuting the
claim that missing required keys yield the empty relation set. -/
theorem c8_counterexample :
    sliceParse loads8 resp8 = some objA
    ∧ objA.hasKey "inspirations" = false
    ∧ objA.hasKey "inspired" = false
    ∧ objA.hasKey "inspired_by" = false
    ∧ parse_json_response loads8 resp8 = objA
    ∧ parse_json_response loads8 resp8 ≠ emptyRelations := by
  have hp : parse_json_response loads8 resp8 = objA := by rfl
  refine ⟨by rfl, by rfl, by rfl, by rfl, hp, ?_⟩
  intro h
  have h2 := congrArg (fun j => Json.hasKey j "inspired") h
  simp only [hp] at h2
  rw [show Json.hasKey objA "inspired" = false from rfl,
    show Json.hasKey emptyRelations "inspired" = true from rfl] at h2
  exact Bool.false_ne_true h2

/-- Claim C8 (amended): when the first-brace..last-brace slice parses
successfully, `_parse_json_response` returns the parsed object unchanged —
even when the required relation keys are absent from it; the empty
relation set is returned exactly when there is no such slice or parsing
fails. -/
theorem c8_parse_returns_parsed_object (loads : String → Option Json)
    (response : String) :
    (∀ j, sliceParse loads response = some j →
      parse_json_response loads response = j)
    ∧ (sliceParse loads response = none →
      parse_json_response loads response = emptyRelations) := by
  constructor
  · intro j h
    unfold parse_json_response
    rw [h]
    rfl
  · intro h
    unfold parse_json_response
    rw [h]
    rfl

/-- Claim C8 witness: the amended statement applied to the concrete
responder output `resp8`. -/
theorem c8_parse_returns_parsed_object_witness :
    parse_json_response loads8 resp8 = objA :=
  (c8_parse_returns_parsed_object loads8 resp8).1 objA (by rfl)

/-- A responder attempt that failed, or produced output in which no JSON
object can be parsed (no brace-delimited slice, or `json.loads` failing
on it). -/
def degradedOutcome (loads : String → Option Json) (o : ResponderOutcome) :
    Prop :=
  o = .fail ∨ ∃ c, o = .ok c ∧ sliceParse loads c = none

theorem callResponder_degraded {loads : String → Option Json}
    {o : ResponderOutcome} (h : degradedOutcome loads o) :
    callResponder loads o = none ∨ callResponder loads o = some emptyRelations := by
  rcases h with rfl | ⟨c, rfl, hc⟩
  · left; rfl
  · right
    show some (parse_json_response loads c) = some emptyRelations
    unfold parse_json_response
    rw [hc]
    rfl

theorem chain_step {loads : String → Option Json} (r : Option Json) (b : Bool)
    (o : ResponderOutcome) (hr : r = none ∨ r = some emptyRelations)
    (ho : degradedOutcome loads o) :
    (if r.isNone && b then callResponder loads o else r) = none
      ∨ (if r.isNone && b then callResponder loads o else r)
          = some emptyRelations := by
  split
  · exact callResponder_degraded ho
  · exact hr

theorem responderChain_degraded {loads : String → Option Json}
    (cfg : LLMConfig) (rs : Responders)
    (h1 : degradedOutcome loads rs.cerebras)
    (h2 : degradedOutcome loads rs.groq)
    (h3 : degradedOutcome loads rs.mistral)
    (h4 : degradedOutcome loads rs.openai)
    (h5 : degradedOutcome loads rs.ollama) :
    responderChain loads cfg rs = none
      ∨ responderChain loads cfg rs = some emptyRelations := by
  simp only [responderChain]
  have s1 : (if cfg.use_cerebras then callResponder loads rs.cerebras else none)
        = none
      ∨ (if cfg.use_cerebras then callResponder loads rs.cerebras else none)
        = some emptyRelations := by
    split
    · exact callResponder_degraded h1
    · left; rfl
  have s2 := chain_step _ cfg.use_groq rs.groq s1 h2
  have s3 := chain_step _ cfg.use_mistral rs.mistral s2 h3
  have s4 := chain_step _ cfg.openai_key rs.openai s3 h4
  rcases s4 with h | h
  · rw [h]
    simpa using callResponder_degraded h5
  · rw [h]
    right
    simp

theorem get_prompt_version (mgr : CacheManager) (store : CacheStore)
    (text name : String) :
    ((mgr.get store text name).2).prompt_version = mgr.prompt_version := by
  simp only [CacheManager.get]
  cases store.read (mgr.generate_key text name) with
  | none => rfl
  | some cached =>
    dsimp only
    by_cases hv : (cached.prompt_version != mgr.prompt_version) = true
    · rw [if_pos hv]
    · rw [if_neg hv]

theorem generate_key_congr {m₁ m₂ : CacheManager}
    (h : m₁.prompt_version = m₂.prompt_version) (text name : String) :
    m₁.generate_key text name = m₂.generate_key text name := by
  unfold CacheManager.generate_key
  rw [h]

theorem get_after_set (mgr : CacheManager) (store : CacheStore)
    (text name : String) (r : Json) (now : Nat) :
    mgr.get (mgr.set store text name r now) text name
      = (some r, { mgr with hits := mgr.hits + 1 }) := by
  simp [CacheManager.get, CacheManager.set, CacheStore.read, CacheStore.write]

/-- Claim C1 (amended): on a cache miss, when every responder attempt
fails or yields output in which no JSON object can be parsed,
`extract_relations` returns the empty relation set — which the source
spells `{"inspirations": [], "inspired": []}` — without raising, writes
that empty result to the cache under the (subject, text, policy-version)
key, and a repeated call with the same subject and text is a cache hit:
it returns the same empty result straight from the cache, regardless of
what the responders would now answer, leaving the store untouched. -/
theorem c1_degrade_path (loads : String → Option Json) (cfg : LLMConfig)
    (rs : Responders) (mgr : CacheManager) (store : CacheStore)
    (text scientist_name : String) (now : Nat)
    (hmiss : (mgr.get store text scientist_name).1 = none)
    (h1 : degradedOutcome loads rs.cerebras)
    (h2 : degradedOutcome loads rs.groq)
    (h3 : degradedOutcome loads rs.mistral)
    (h4 : degradedOutcome loads rs.openai)
    (h5 : degradedOutcome loads rs.ollama) :
    (extract_relations loads cfg rs mgr store text scientist_name now).1
        = emptyRelations
    ∧ (((extract_relations loads cfg rs mgr store text scientist_name now).2.2.read
          (mgr.generate_key text scientist_name)).map (·.result))
        = some emptyRelations
    ∧ ∀ (loads₂ : String → Option Json) (cfg₂ : LLMConfig) (rs₂ : Responders)
        (now₂ : Nat),
        extract_relations loads₂ cfg₂ rs₂
            (extract_relations loads cfg rs mgr store text scientist_name now).2.1
            (extract_relations loads cfg rs mgr store text scientist_name now).2.2
            text scientist_name now₂
          = (emptyRelations,
             { (extract_relations loads cfg rs mgr store text
                  scientist_name now).2.1 with
               hits := (extract_relations loads cfg rs mgr store text
                  scientist_name now).2.1.hits + 1 },
             (extract_relations loads cfg rs mgr store text
                scientist_name now).2.2) := by
  have hget : mgr.get store text scientist_name
      = (none, (mgr.get store text scientist_name).2) := by
    cases hq : mgr.get store text scientist_name with
    | mk a b => rw [hq] at hmiss; simp only at hmiss; rw [hmiss]
  have hchain := responderChain_degraded cfg rs h1 h2 h3 h4 h5
  have hfinal :
      (match responderChain loads cfg rs with
        | some j => if j.truthy then j else emptyRelations
        | none => emptyRelations) = emptyRelations := by
    rcases hchain with h | h
    · rw [h]
    · rw [h]
      rfl
  have hmain : extract_relations loads cfg rs mgr store text scientist_name now
      = (emptyRelations, (mgr.get store text scientist_name).2,
         ((mgr.get store text scientist_name).2).set store text scientist_name
           emptyRelations now) := by
    unfold extract_relations
    rw [hget]
    simp only [hfinal]
  have hver := get_prompt_version mgr store text scientist_name
  have hkey := generate_key_congr hver text scientist_name
  refine ⟨by rw [hmain], ?_, ?_⟩
  · rw [hmain]
    simp only [CacheManager.set, CacheStore.read, CacheStore.write]
    rw [hkey]
    simp
  · intro loads₂ cfg₂ rs₂ now₂
    rw [hmain]
    unfold extract_relations
    rw [get_after_set]

/-- Claim C1 counterexample: with every responder failing on a cold cache,
the returned empty relation set does not carry the key `"inspired_by"`
that the claim asserts — the source's empty relation set uses the key
`"inspirations"` instead. -/
theorem c1_counterexample :
    ((extract_relations (fun _ => none) ⟨true, true, true, true⟩
        ⟨.fail, .fail, .fail, .fail, .fail⟩ CacheManager.init CacheStore.empty
        "some text" "Ada Lovelace" 0).1).hasKey "inspired_by" = false
    ∧ ((extract_relations (fun _ => none) ⟨true, true, true, true⟩
        ⟨.fail, .fail, .fail, .fail, .fail⟩ CacheManager.init CacheStore.empty
        "some text" "Ada Lovelace" 0).1).hasKey "inspirations" = true
    ∧ (Json.obj [("inspired_by", Json.arr []), ("inspired", Json.arr [])]).hasKey
        "inspired_by" = true := by
  exact ⟨rfl, rfl, rfl⟩

/-- Claim C1 witness: the degrade path applied to the concrete all-failing
responder configuration on an empty cache. -/
theorem c1_degrade_path_witness :
    (extract_relations (fun _ => none) ⟨true, true, true, true⟩
        ⟨.fail, .fail, .fail, .fail, .fail⟩ CacheManager.init CacheStore.empty
        "some text" "Ada Lovelace" 0).1 = emptyRelations :=
  (c1_degrade_path (fun _ => none) ⟨true, true, true, true⟩
    ⟨.fail, .fail, .fail, .fail, .fail⟩ CacheManager.init CacheStore.empty
    "some text" "Ada Lovelace" 0 (by rfl)
    (Or.inl rfl) (Or.inl rfl) (Or.inl rfl) (Or.inl rfl) (Or.inl rfl)).1

/-! ### C9 — offline confidence scoring -/

theorem temporal_score_bounds (b : Bool) (sb tb : Option Int) :
    0 ≤ check_temporal_plausibility b sb tb
      ∧ check_temporal_plausibility b sb tb ≤ 1 := by
  unfold check_temporal_plausibility
  dsimp only
  constructor <;> split_ifs <;> norm_num

theorem cooccurrence_score_bounds (o : CooccurOutcome) :
    0 ≤ check_wikipedia_cooccurrence o ∧ check_wikipedia_cooccurrence o ≤ 1 := by
  unfold check_wikipedia_cooccurrence
  rcases o with _ | ⟨se, sm, te, tm⟩
  · norm_num
  · dsimp only
    constructor <;> split_ifs <;> norm_num

/-- Oracle input for the C9 counterexample: no Wikidata ids resolve, the
graph is absent (neutral temporal score 0.5), and the co-occurrence probe
raises (score 0.25). -/
def cexOracle : ValidatorOracles :=
  ⟨fun _ => none, fun _ _ => (false, false), false, fun _ => none,
   fun _ _ => .raised⟩

/-- Claim C9 counterexample: on the exception path of the co-occurrence
probe the returned confidence is rounded to three decimals (0.162) while
the exact weighted sum is 0.1625, so the returned confidence is not equal
to the weighted sum; the keep decision still uses the unrounded sum. -/
theorem c9_counterexample :
    (validate_and_score cexOracle "A" "B").confidence = 81 / 500
    ∧ weightedConfidence (validate_and_score cexOracle "A" "B").scores = 13 / 80
    ∧ (validate_and_score cexOracle "A" "B").confidence
        ≠ weightedConfidence (validate_and_score cexOracle "A" "B").scores := by
  have hsc : (validate_and_score cexOracle "A" "B").scores
      = ⟨0, 0, 1 / 2, 1 / 4⟩ := rfl
  have hw : weightedConfidence ⟨0, 0, 1 / 2, 1 / 4⟩ = 13 / 80 := by
    norm_num [weightedConfidence, W_DOCTORAL, W_INFLUENCE, W_TEMPORAL,
      W_COOCCURRENCE]
  have hfl : ⌊(13 : Rat) / 80 * 1000⌋ = 162 := by
    rw [show (13 : Rat) / 80 * 1000 = 325 / 2 by norm_num]
    rw [Int.floor_eq_iff]
    constructor <;> norm_num
  have hround : pyRound3 ((13 : Rat) / 80) = 81 / 500 := by
    unfold pyRound3 roundHalfEven
    rw [hfl]
    norm_num
  have hconf : (validate_and_score cexOracle "A" "B").confidence
      = pyRound3 (weightedConfidence ⟨0, 0, 1 / 2, 1 / 4⟩) := rfl
  refine ⟨?_, ?_, ?_⟩
  · rw [hconf, hw, hround]
  · rw [hsc, hw]
  · rw [hconf, hw, hround, hsc, hw]
    norm_num

/-- Claim C9 (amended): for every edge, `validate_and_score` computes the
weighted sum 0.35·doctoral + 0.25·influence + 0.25·temporal +
0.15·co-occurrence over the four per-signal scores (each in [0, 1]),
reports it rounded to three decimals in the `confidence` field, and sets
`keep` exactly when the unrounded weighted sum is at least 0.4. -/
theorem c9_weighted_scoring (o : ValidatorOracles) (s t : String) :
    (validate_and_score o s t).confidence
        = pyRound3 (weightedConfidence (validate_and_score o s t).scores)
    ∧ ((validate_and_score o s t).keep = true
        ↔ weightedConfidence (validate_and_score o s t).scores
            ≥ MIN_CONFIDENCE_THRESHOLD)
    ∧ (0 ≤ (validate_and_score o s t).scores.wikidata_doctoral
        ∧ (validate_and_score o s t).scores.wikidata_doctoral ≤ 1)
    ∧ (0 ≤ (validate_and_score o s t).scores.wikidata_influence
        ∧ (validate_and_score o s t).scores.wikidata_influence ≤ 1)
    ∧ (0 ≤ (validate_and_score o s t).scores.temporal_plausibility
        ∧ (validate_and_score o s t).scores.temporal_plausibility ≤ 1)
    ∧ (0 ≤ (validate_and_score o s t).scores.cooccurrence
        ∧ (validate_and_score o s t).scores.cooccurrence ≤ 1) := by
  have boolBound : ∀ (b : Bool),
      0 ≤ (if b = true then (1 : Rat) else 0)
        ∧ (if b = true then (1 : Rat) else 0) ≤ 1 := by
    intro b
    cases b <;> norm_num
  have condBound : ∀ (b : Bool) (oc : CooccurOutcome),
      0 ≤ (if b = true then check_wikipedia_cooccurrence oc else 0)
        ∧ (if b = true then check_wikipedia_cooccurrence oc else 0) ≤ 1 := by
    intro b oc
    cases b
    · norm_num
    · simpa using cooccurrence_score_bounds oc
  exact ⟨rfl, decide_eq_true_iff, boolBound _, boolBound _,
    temporal_score_bounds _ _ _, condBound _ _⟩

/-! ### C4 / C5 — crawl-engine invariants -/

theorem ensureNode_edges (g : PyGraph) (n : String) :
    (g.ensureNode n).edges = g.edges := by
  unfold PyGraph.ensureNode
  split <;> rfl

theorem hasNode_ensureNode_self (g : PyGraph) (n : String) :
    (g.ensureNode n).hasNode n = true := by
  unfold PyGraph.ensureNode
  split
  · assumption
  · unfold PyGraph.hasNode
    simp

theorem hasNode_ensureNode_mono (g : PyGraph) (n m : String)
    (h : g.hasNode m = true) : (g.ensureNode n).hasNode m = true := by
  unfold PyGraph.ensureNode
  split
  · exact h
  · unfold PyGraph.hasNode at h ⊢
    simp only [List.any_append, h]
    rfl

theorem add_edge_of_present (g : PyGraph) (u v : String)
    (hu : g.hasNode u = true) (hv : g.hasNode v = true)
    (he : g.edges.contains (u, v) = true) : g.add_edge u v = g := by
  unfold PyGraph.add_edge PyGraph.ensureNode
  rw [if_pos hu, if_pos hv, if_pos he]

theorem chronoWriteback_edges (ey : String → Option Int × Option Int)
    (g : PyGraph) (c : String) :
    (chronoWriteback ey g c).edges = g.edges := by
  unfold chronoWriteback
  split_ifs <;> rfl

theorem add_edge_edges (g : PyGraph) (u v : String) :
    (g.add_edge u v).edges
      = if g.edges.contains (u, v) then g.edges else g.edges ++ [(u, v)] := by
  unfold PyGraph.add_edge
  dsimp only
  split
  · next h =>
    rw [ensureNode_edges, ensureNode_edges] at h ⊢
    rw [if_pos h]
  · next h =>
    rw [ensureNode_edges, ensureNode_edges] at h
    dsimp only
    rw [ensureNode_edges, ensureNode_edges, if_neg h]

theorem hasNode_add_edge (g : PyGraph) (u v m : String)
    (h : ((g.ensureNode u).ensureNode v).hasNode m = true) :
    (g.add_edge u v).hasNode m = true := by
  unfold PyGraph.add_edge
  dsimp only
  split
  · exact h
  · unfold PyGraph.hasNode at h ⊢
    exact h

theorem contains_add_edge (g : PyGraph) (u v : String) :
    (g.add_edge u v).edges.contains (u, v) = true := by
  rw [show (g.add_edge u v).edges
      = if g.edges.contains (u, v) then g.edges else g.edges ++ [(u, v)]
    from add_edge_edges g u v]
  split
  · assumption
  · simp

theorem add_edge_idem (g : PyGraph) (u v : String) :
    (g.add_edge u v).add_edge u v = g.add_edge u v := by
  apply add_edge_of_present
  · exact hasNode_add_edge g u v u
      (hasNode_ensureNode_mono _ _ _ (hasNode_ensureNode_self g u))
  · exact hasNode_add_edge g u v v (hasNode_ensureNode_self _ v)
  · exact contains_add_edge g u v

theorem mem_add_edge_edges (g : PyGraph) (u v : String) (e : String × String)
    (h : e ∈ (g.add_edge u v).edges) : e ∈ g.edges ∨ e = (u, v) := by
  rw [add_edge_edges] at h
  revert h
  split
  · exact fun h => Or.inl h
  · intro h
    rcases List.mem_append.mp h with h | h
    · exact Or.inl h
    · simp at h
      exact Or.inr h

theorem chrono_full_edges (ey : String → Option Int × Option Int) (g : PyGraph)
    (c t r : String) :
    ((is_chronologically_valid_full ey g c t r).2).edges = g.edges := by
  unfold is_chronologically_valid_full
  dsimp only
  split
  · exact chronoWriteback_edges ey g c
  · exact chronoWriteback_edges ey g c

theorem processPerson_self (o : CrawlOracles) (current : String) (depth : Nat)
    (visited : List String) (rt : String) (acc : PyGraph × List (String × Nat))
    (person : String) (h : person = current) :
    processPerson o current depth visited rt acc person = acc := by
  obtain ⟨g, q⟩ := acc
  unfold processPerson
  dsimp only
  rw [if_pos (by simp [h])]

theorem processPerson_edges (o : CrawlOracles) (current : String) (depth : Nat)
    (visited : List String) (rt : String) (acc : PyGraph × List (String × Nat))
    (person : String) (e : String × String)
    (h : e ∈ ((processPerson o current depth visited rt acc person).1).edges) :
    e ∈ acc.1.edges ∨ e.1 ≠ e.2 := by
  obtain ⟨g, q⟩ := acc
  unfold processPerson at h
  dsimp only at h ⊢
  by_cases hpc : (person == current) = true
  · rw [if_pos hpc] at h
    exact Or.inl h
  · rw [if_neg hpc] at h
    have hne : person ≠ current := by
      intro hh
      exact hpc (by simp [hh])
    by_cases hval : o.is_valid_name person = true
    · rw [if_pos hval] at h
      by_cases hok : (is_chronologically_valid_full o.extract_years g current
          person rt).1 = true
      · rw [if_pos hok] at h
        dsimp only at h
        revert h
        split
        · intro h
          rcases mem_add_edge_edges _ _ _ _ h with h | h
          · rw [chrono_full_edges] at h
            exact Or.inl h
          · right
            rw [h]
            exact hne
        · intro h
          rcases mem_add_edge_edges _ _ _ _ h with h | h
          · rw [chrono_full_edges] at h
            exact Or.inl h
          · right
            rw [h]
            exact fun hh => hne hh.symm
      · rw [if_neg hok] at h
        rw [chrono_full_edges] at h
        exact Or.inl h
    · rw [if_neg hval] at h
      exact Or.inl h

theorem foldPersons_edges (o : CrawlOracles) (current : String) (depth : Nat)
    (visited : List String) (rt : String) (people : List String)
    (acc : PyGraph × List (String × Nat)) (e : String × String)
    (h : e ∈ ((people.foldl (processPerson o current depth visited rt) acc).1).edges) :
    e ∈ acc.1.edges ∨ e.1 ≠ e.2 := by
  induction people generalizing acc with
  | nil => exact Or.inl h
  | cons p ps ih =>
    rw [List.foldl_cons] at h
    rcases ih _ h with h' | h'
    · exact processPerson_edges o current depth visited rt acc p e h'
    · exact Or.inr h'

theorem add_node_edges (g : PyGraph) (n : String) (d : Nat) (f : String)
    (b : Option Int) : (g.add_node n d f b).edges = g.edges := by
  unfold PyGraph.add_node
  split <;> rfl

theorem crawlStep_edges (o : CrawlOracles) (st : CrawlState) (e : String × String)
    (h : e ∈ (crawlStep o st).graph.edges) :
    e ∈ st.graph.edges ∨ e.1 ≠ e.2 := by
  unfold crawlStep at h
  split at h
  · exact Or.inl h
  · dsimp only at h
    split at h
    · exact Or.inl h
    · split at h
      · exact Or.inl h
      · split at h
        · exact Or.inl h
        · split at h
          · exact Or.inl h
          · exact Or.inl h
          · split at h
            · dsimp only at h
              rw [add_node_edges] at h
              exact Or.inl h
            · dsimp only at h
              rcases foldPersons_edges _ _ _ _ _ _ _ _ h with h' | h'
              · rcases foldPersons_edges _ _ _ _ _ _ _ _ h' with h'' | h''
                · dsimp only at h''
                  rw [add_node_edges] at h''
                  exact Or.inl h''
                · exact Or.inr h''
              · exact Or.inr h'

/-- No edge joins a node to itself. -/
def noSelfLoops (g : PyGraph) : Prop := ∀ e ∈ g.edges, e.1 ≠ e.2

theorem crawlStep_noSelfLoops (o : CrawlOracles) (st : CrawlState)
    (h : noSelfLoops st.graph) : noSelfLoops (crawlStep o st).graph :=
  fun e he => (crawlStep_edges o st e he).elim (h e) id

theorem crawlLoop_noSelfLoops (o : CrawlOracles) (fuel : Nat) (st : CrawlState)
    (h : noSelfLoops st.graph) : noSelfLoops (crawlLoop o fuel st).graph := by
  induction fuel generalizing st with
  | zero => exact h
  | succ fuel ih =>
    unfold crawlLoop
    split
    · exact ih _ (crawlStep_noSelfLoops o st h)
    · exact h

theorem crawlStep_saveLog (o : CrawlOracles) (st : CrawlState) :
    (crawlStep o st).saveLog = st.saveLog
      ∨ ∃ n, n % 20 = 0 ∧ (crawlStep o st).saveLog = st.saveLog ++ [n] := by
  unfold crawlStep
  split
  · exact Or.inl rfl
  · dsimp only
    split
    · exact Or.inl rfl
    · split
      · exact Or.inl rfl
      · split
        · exact Or.inl rfl
        · split
          · exact Or.inl rfl
          · exact Or.inl rfl
          · split
            · exact Or.inl rfl
            · dsimp only
              split
              · next hmod =>
                exact Or.inr ⟨_, by simpa using hmod, rfl⟩
              · exact Or.inl rfl

theorem crawlLoop_saveLog (o : CrawlOracles) (fuel : Nat) (st : CrawlState) :
    ∃ l, (crawlLoop o fuel st).saveLog = st.saveLog ++ l
      ∧ ∀ n ∈ l, n % 20 = 0 := by
  induction fuel generalizing st with
  | zero => exact ⟨[], by simp [crawlLoop], by simp⟩
  | succ fuel ih =>
    unfold crawlLoop
    split
    · obtain ⟨l, hl, hml⟩ := ih (crawlStep o st)
      rcases crawlStep_saveLog o st with h | ⟨n, hmod, hs⟩
      · exact ⟨l, by rw [hl, h], hml⟩
      · refine ⟨n :: l, ?_, ?_⟩
        · rw [hl, hs, List.append_assoc]
          rfl
        · intro m hm
          rcases List.mem_cons.mp hm with rfl | hm
          · exact hmod
          · exact hml m hm
    · exact ⟨[], by simp, by simp⟩

theorem crawlLoop_exit (o : CrawlOracles) (fuel : Nat) (st : CrawlState)
    (h : st.queue = [] ∨ ¬ st.visited.length < MAX_SCIENTISTS) :
    crawlLoop o fuel st = st := by
  cases fuel with
  | zero => rfl
  | succ fuel =>
    unfold crawlLoop
    rw [if_neg]
    intro hc
    rcases h with h | h
    · rw [h] at hc
      simp at hc
    · have hc2 := (Bool.and_eq_true _ _).mp hc
      exact h (by simpa using hc2.2)

theorem insertVisited_length (l : List String) (n : String)
    (h : l.contains n = false) :
    (insertVisited l n).length = l.length + 1 := by
  unfold insertVisited
  rw [h]
  simp

theorem crawlStep_save_fires (o : CrawlOracles) (st : CrawlState)
    (current : String) (depth : Nat) (rest : List (String × Nat))
    (text : String) (links : List String)
    (hq : st.queue = (current, depth) :: rest)
    (hv : st.visited.contains current = false)
    (hd : ¬ depth > MAX_DEPTH)
    (hb : blacklisted current = false)
    (hf : o.fetch current = .found text links)
    (hleaf : (depth == MAX_DEPTH) = false)
    (hmod : (st.visited.length + 1) % 20 = 0) :
    (crawlStep o st).saveLog = st.saveLog ++ [st.visited.length + 1] := by
  unfold crawlStep
  rw [hq]
  dsimp only
  rw [if_neg (by rw [hv]; exact Bool.false_ne_true),
    if_neg (by simpa using hd), if_neg (by rw [hb]; exact Bool.false_ne_true),
    hf]
  dsimp only
  rw [if_neg (by rw [hleaf]; exact Bool.false_ne_true)]
  dsimp only
  rw [insertVisited_length st.visited current hv,
    if_pos (by rw [hmod]; rfl)]

/-- Claim C4: no self-loops.  Edge insertion is idempotent (a second
insertion of the same ordered pair changes nothing, hence no parallel
duplicates); the relation loops skip a candidate equal to the current
subject, so the engine's insertion step is a no-op on equal endpoints;
every edge a crawl step adds has distinct endpoints; and a crawl from a
self-loop-free graph (in particular a fresh start) ends self-loop-free. -/
theorem c4_no_self_loops :
    (∀ (g : PyGraph) (u v : String),
      (g.add_edge u v).add_edge u v = g.add_edge u v)
    ∧ (∀ (o : CrawlOracles) (current : String) (depth : Nat)
        (visited : List String) (rt : String)
        (acc : PyGraph × List (String × Nat)) (person : String),
        person = current →
        processPerson o current depth visited rt acc person = acc)
    ∧ (∀ (o : CrawlOracles) (st : CrawlState) (e : String × String),
        e ∈ (crawlStep o st).graph.edges → e ∈ st.graph.edges ∨ e.1 ≠ e.2)
    ∧ (∀ (o : CrawlOracles) (fuel : Nat) (st : CrawlState),
        noSelfLoops st.graph → noSelfLoops (crawlLoop o fuel st).graph) :=
  ⟨add_edge_idem,
   processPerson_self,
   crawlStep_edges,
   crawlLoop_noSelfLoops⟩

/-- Oracles for the C4 witness: no page is ever found. -/
def oW : CrawlOracles :=
  ⟨fun _ => .absent, fun _ => none, fun _ => (none, none), fun _ => true,
   fun _ => Json.obj []⟩

/-- A state whose graph already carries one (well-formed) edge. -/
def stE : CrawlState :=
  ⟨⟨[("X", NodeAttrs.blank), ("Y", NodeAttrs.blank)], [("X", "Y")]⟩, [], [], []⟩

/-- Claim C4 witness: the four parts applied at concrete inputs. -/
theorem c4_no_self_loops_witness :
    ((PyGraph.empty.add_edge "X" "Y").add_edge "X" "Y"
        = PyGraph.empty.add_edge "X" "Y")
    ∧ processPerson oW "A" 0 [] "inspired" (PyGraph.empty, []) "A"
        = (PyGraph.empty, [])
    ∧ (("X", "Y") ∈ stE.graph.edges ∨ "X" ≠ "Y")
    ∧ noSelfLoops ((crawlLoop oW 5 ⟨PyGraph.empty, [], [("A", 0)], []⟩).graph) :=
  ⟨c4_no_self_loops.1 PyGraph.empty "X" "Y",
   c4_no_self_loops.2.1 oW "A" 0 [] "inspired" (PyGraph.empty, []) "A" rfl,
   c4_no_self_loops.2.2.1 oW stE ("X", "Y") (by decide),
   c4_no_self_loops.2.2.2 oW 5 ⟨PyGraph.empty, [], [("A", 0)], []⟩
     (fun e he => absurd he (by simp [PyGraph.empty]))⟩

/-- Claim C5 (amended): inside the crawl loop a checkpoint happens exactly
after fully processing a subject of depth strictly below the depth cap
when the visited count has just reached a multiple of 20 (subjects
processed at exactly the depth cap skip the autosave check), so every
recorded checkpoint count is a multiple of 20; and the loop performs no
final checkpoint on exit — when a terminal condition holds it returns the
state unchanged, whichever condition triggered. -/
theorem c5_checkpoint_schedule :
    (∀ (o : CrawlOracles) (st : CrawlState),
      (crawlStep o st).saveLog = st.saveLog
        ∨ ∃ n, n % 20 = 0 ∧ (crawlStep o st).saveLog = st.saveLog ++ [n])
    ∧ (∀ (o : CrawlOracles) (fuel : Nat) (st : CrawlState),
        ∃ l, (crawlLoop o fuel st).saveLog = st.saveLog ++ l
          ∧ ∀ n ∈ l, n % 20 = 0)
    ∧ (∀ (o : CrawlOracles) (fuel : Nat) (st : CrawlState),
        (st.queue = [] ∨ ¬ st.visited.length < MAX_SCIENTISTS) →
        crawlLoop o fuel st = st)
    ∧ (∀ (o : CrawlOracles) (st : CrawlState) (current : String) (depth : Nat)
        (rest : List (String × Nat)) (text : String) (links : List String),
        st.queue = (current, depth) :: rest →
        st.visited.contains current = false →
        ¬ depth > MAX_DEPTH →
        blacklisted current = false →
        o.fetch current = .found text links →
        (depth == MAX_DEPTH) = false →
        (st.visited.length + 1) % 20 = 0 →
        (crawlStep o st).saveLog = st.saveLog ++ [st.visited.length + 1]) :=
  ⟨crawlStep_saveLog,
   crawlLoop_saveLog,
   crawlLoop_exit,
   crawlStep_save_fires⟩

/-- Relation oracle for the C5 counterexample: the seed fans out to five
subjects at depth 1, one of which starts a chain reaching depth 15 (the
depth cap) as exactly the 20th processed subject. -/
def c5rel (n : String) : Json :=
  if n == "q00" then
    Json.obj [("inspired", Json.arr [Json.str "c01", Json.str "f02",
      Json.str "f03", Json.str "f04", Json.str "f05"])]
  else if n == "c01" then Json.obj [("inspired", Json.arr [Json.str "c02"])]
  else if n == "c02" then Json.obj [("inspired", Json.arr [Json.str "c03"])]
  else if n == "c03" then Json.obj [("inspired", Json.arr [Json.str "c04"])]
  else if n == "c04" then Json.obj [("inspired", Json.arr [Json.str "c05"])]
  else if n == "c05" then Json.obj [("inspired", Json.arr [Json.str "c06"])]
  else if n == "c06" then Json.obj [("inspired", Json.arr [Json.str "c07"])]
  else if n == "c07" then Json.obj [("inspired", Json.arr [Json.str "c08"])]
  else if n == "c08" then Json.obj [("inspired", Json.arr [Json.str "c09"])]
  else if n == "c09" then Json.obj [("inspired", Json.arr [Json.str "c10"])]
  else if n == "c10" then Json.obj [("inspired", Json.arr [Json.str "c11"])]
  else if n == "c11" then Json.obj [("inspired", Json.arr [Json.str "c12"])]
  else if n == "c12" then Json.obj [("inspired", Json.arr [Json.str "c13"])]
  else if n == "c13" then Json.obj [("inspired", Json.arr [Json.str "c14"])]
  else if n == "c14" then Json.obj [("inspired", Json.arr [Json.str "c15"])]
  else Json.obj []

/-- Oracles for the C5 counterexample: every page found, no dates, every
name valid. -/
def o5 : CrawlOracles :=
  ⟨fun _ => .found "" [], fun _ => none, fun _ => (none, none), fun _ => true,
   c5rel⟩

/-- Claim C5 counterexample: a fresh crawl that processes exactly 20
subjects and exits with an empty queue, yet records not a single
checkpoint — the 20th processed subject sits exactly at the depth cap
(whose early `continue` skips the autosave check), and nothing is saved
after the loop exits.  Under the claim the save log would hold a
checkpoint at 20 subjects plus a final one. -/
theorem c5_counterexample :
    (buildFresh o5 30 "q00").queue = []
    ∧ (buildFresh o5 30 "q00").visited.length = 20
    ∧ (buildFresh o5 30 "q00").saveLog = [] := by
  refine ⟨by decide, by decide, by decide⟩

/-- A state about to process its 20th subject at depth 0. -/
def st19 : CrawlState :=
  ⟨PyGraph.empty, ["v01", "v02", "v03", "v04", "v05", "v06", "v07", "v08", "v09", "v10", "v11", "v12", "v13", "v14", "v15", "v16", "v17", "v18", "v19"], [("q00", 0)], []⟩

/-- Claim C5 witness: the exit clause applied to a state with an empty
queue, and the firing clause applied to a 20th fully processed subject
below the depth cap. -/
theorem c5_checkpoint_schedule_witness :
    crawlLoop oW 3 stE = stE
    ∧ (crawlStep o5 st19).saveLog = st19.saveLog ++ [st19.visited.length + 1] :=
  ⟨c5_checkpoint_schedule.2.2.1 oW 3 stE (Or.inl rfl),
   c5_checkpoint_schedule.2.2.2 o5 st19 "q00" 0 [] "" [] rfl (by decide)
     (by decide) (by decide) rfl (by decide) (by decide)⟩

/-! ### C2 — resume reconstruction -/

theorem optMinList_append (o : Option Nat) (a b : List Nat) :
    optMinList o (a ++ b) = optMinList (optMinList o a) b := by
  unfold optMinList
  exact List.foldl_append mergeOne o a b

theorem updateMin_at (m : String → Option Nat) (x : String) (d : Nat)
    (y : String) :
    updateMin m x d y = if y = x then mergeOne (m x) d else m y := by
  unfold updateMin
  by_cases h : (y == x) = true
  · rw [if_pos h, if_pos (eq_of_beq h)]
  · rw [if_neg h, if_neg (fun hh => h (by rw [hh]; exact beq_self_eq_true x))]

theorem candStep_at (g : PyGraph) (u v : String) (m : String → Option Nat)
    (n : String) :
    candStep g m (u, v) n = optMinList (m n) (edgeContribs g n (u, v)) := by
  unfold candStep edgeContribs
  dsimp only
  cases hb1 : (g.isVisited u && g.isCandidate v) with
  | false =>
    cases hb2 : (g.isCandidate u && g.isVisited v) with
    | false => rfl
    | true =>
      simp only [Bool.false_eq_true, if_false, Bool.false_and, Bool.true_and,
        eq_self_iff_true, if_true, List.nil_append, updateMin_at]
      by_cases hnu : n = u
      · subst hnu
        simp [optMinList, mergeOne]
      · rw [if_neg hnu, if_neg (fun h => hnu (eq_of_beq h).symm)]
        rfl
  | true =>
    cases hb2 : (g.isCandidate u && g.isVisited v) with
    | false =>
      simp only [Bool.false_eq_true, if_false, Bool.false_and, Bool.true_and,
        eq_self_iff_true, if_true, List.append_nil, updateMin_at]
      by_cases hnv : n = v
      · subst hnv
        simp [optMinList, mergeOne]
      · rw [if_neg hnv, if_neg (fun h => hnv (eq_of_beq h).symm)]
        rfl
    | true =>
      simp only [eq_self_iff_true, if_true, Bool.true_and, updateMin_at]
      by_cases hnu : n = u
      · by_cases hnv : n = v
        · subst hnu
          subst hnv
          simp [optMinList, mergeOne]
        · subst hnu
          rw [if_pos rfl, if_neg hnv, if_neg (fun h => hnv (eq_of_beq h).symm)]
          simp [optMinList, mergeOne]
      · by_cases hnv : n = v
        · subst hnv
          rw [if_neg hnu, if_pos rfl, if_neg (fun h => hnu (eq_of_beq h).symm)]
          simp [optMinList, mergeOne]
        · rw [if_neg hnu, if_neg hnv,
            if_neg (fun h => hnv (eq_of_beq h).symm),
            if_neg (fun h => hnu (eq_of_beq h).symm)]
          rfl

theorem foldl_candStep (g : PyGraph) (E : List (String × String))
    (m : String → Option Nat) (n : String) :
    (E.foldl (candStep g) m) n
      = optMinList (m n) (E.flatMap (edgeContribs g n)) := by
  induction E generalizing m with
  | nil => rfl
  | cons e E ih =>
    rw [List.foldl_cons, List.flatMap_cons, optMinList_append,
      ih (candStep g m e)]
    obtain ⟨u, v⟩ := e
    rw [candStep_at]

theorem candMap_spec (g : PyGraph) (n : String) :
    candMap g n = specCandidateDepth g n := by
  unfold candMap specCandidateDepth specContribs
  exact foldl_candStep g g.edges (fun _ => none) n

theorem find?_eq_of_mem_nodup (l : List (String × NodeAttrs))
    (hnd : (l.map (·.1)).Nodup) (p : String × NodeAttrs) (hp : p ∈ l) :
    l.find? (fun q => q.1 == p.1) = some p := by
  induction l with
  | nil => cases hp
  | cons a t ih =>
    have hnd' : (a.1 :: t.map (·.1)).Nodup := by simpa using hnd
    have hnotmem : a.1 ∉ t.map (·.1) := (List.nodup_cons.mp hnd').1
    have hndt : (t.map (·.1)).Nodup := (List.nodup_cons.mp hnd').2
    rcases List.mem_cons.mp hp with rfl | hp'
    · rw [List.find?_cons_of_pos t (by simp)]
    · by_cases hk : (a.1 == p.1) = true
      · exfalso
        apply hnotmem
        rw [eq_of_beq hk]
        exact List.mem_map_of_mem (·.1) hp'
      · rw [List.find?_cons_of_neg t (by exact hk)]
        exact ih hndt hp'

theorem mem_visitedOf (g : PyGraph) (n : String) :
    n ∈ visitedOf g ↔ ∃ a, (n, a) ∈ g.nodes ∧ a.depth.isSome = true := by
  unfold visitedOf
  constructor
  · intro h
    obtain ⟨p, hp, rfl⟩ := List.mem_map.mp h
    have hm := List.mem_filter.mp hp
    exact ⟨p.2, by simpa using hm.1, hm.2⟩
  · rintro ⟨a, ha, hd⟩
    exact List.mem_map.mpr ⟨(n, a), List.mem_filter.mpr ⟨ha, hd⟩, rfl⟩

theorem mem_candidateNames_iff (g : PyGraph)
    (hnd : (g.nodes.map (·.1)).Nodup) (n : String) :
    n ∈ candidateNames g ↔ g.isCandidate n = true := by
  unfold candidateNames PyGraph.isCandidate PyGraph.attrs
  constructor
  · intro h
    obtain ⟨p, hp, rfl⟩ := List.mem_map.mp h
    obtain ⟨hmem, hdep⟩ := List.mem_filter.mp hp
    rw [find?_eq_of_mem_nodup g.nodes hnd p hmem]
    exact hdep
  · intro h
    cases hf : g.nodes.find? (fun q => q.1 == n) with
    | none => rw [hf] at h; cases h
    | some p =>
      rw [hf] at h
      have hp1 : p.1 = n := by simpa using List.find?_some hf
      have hmem : p ∈ g.nodes := List.mem_of_find?_eq_some hf
      refine List.mem_map.mpr ⟨p, List.mem_filter.mpr ⟨hmem, h⟩, hp1⟩

/-- The persisted graph of the spec's worked example: `A(depth 0)`,
`B(depth 1)`, `C` without depth, one edge from `C` to `B`. -/
def gEx : PyGraph :=
  ⟨[("A", ⟨some 0, none, none⟩), ("B", ⟨some 1, none, none⟩),
    ("C", ⟨none, none, none⟩)], [("C", "B")]⟩

/-- Claim C2: resume reconstruction.  Loading a persisted graph marks
exactly the nodes carrying a `depth` attribute as visited; under
duplicate-free node names, a pair `(n, d)` is queued iff `n` is a node
without depth whose rebuilt depth — the minimum of (visited neighbour's
depth + 1) over all incident edges in either direction — is `d`
(candidates with no visited neighbour have no finite depth and are
dropped); the queue is sorted by ascending depth; and on the worked
example the visited set is `{A, B}` and the queue is `[(C, 2)]`. -/
theorem c2_resume_reconstruction :
    (∀ (g : PyGraph) (n : String),
      n ∈ visitedOf g ↔ ∃ a, (n, a) ∈ g.nodes ∧ a.depth.isSome = true)
    ∧ (∀ g : PyGraph, (g.nodes.map (·.1)).Nodup →
        ∀ (n : String) (d : Nat),
          (n, d) ∈ resumeQueue g
            ↔ g.isCandidate n = true ∧ specCandidateDepth g n = some d)
    ∧ (∀ g : PyGraph, List.Sorted byDepth (resumeQueue g))
    ∧ (visitedOf gEx = ["A", "B"] ∧ resumeQueue gEx = [("C", 2)]) := by
  refine ⟨mem_visitedOf, ?_, ?_, by decide, by decide⟩
  · intro g hnd n d
    unfold resumeQueue
    rw [(List.perm_insertionSort byDepth (validCandidates g)).mem_iff]
    unfold validCandidates
    rw [List.mem_filterMap]
    constructor
    · rintro ⟨a, ha, hfa⟩
      rcases hm : candMap g a with _ | dd
      · rw [hm] at hfa
        cases hfa
      · rw [hm, Option.map_some'] at hfa
        injection hfa with hpair
        simp only [Prod.mk.injEq] at hpair
        obtain ⟨rfl, rfl⟩ := hpair
        exact ⟨(mem_candidateNames_iff g hnd a).mp ha,
          by rw [← candMap_spec, hm]⟩
    · rintro ⟨hc, hs⟩
      refine ⟨n, (mem_candidateNames_iff g hnd n).mpr hc, ?_⟩
      rw [candMap_spec, hs]
      rfl
  · intro g
    exact List.sorted_insertionSort byDepth (validCandidates g)

/-- Claim C2 witness: the queue membership clause applied to the worked
example, yielding `(C, 2)` in the resumed queue. -/
theorem c2_resume_reconstruction_witness :
    ("C", 2) ∈ resumeQueue gEx :=
  (c2_resume_reconstruction.2.1 gEx (by decide) "C" 2).mpr
    ⟨by decide, by decide⟩

end GRS
